import Mathlib

/-!
Shallow embedding of the go-fissio pipeline execution engine.

The definitions below translate, function by function, the Go sources in
`core/`, `tools/`, `llm/`, and `engine/`.  External effects are modelled as
follows: the LLM provider is a deterministic function supplied as a `Client`
value; tool execution returns `Except String String` (the `String` error is
the Go error message); wall-clock time is omitted (no claim mentions it).
Go maps are modelled by association lists with last-write-wins lookup, and
the unspecified iteration order of a Go map is made explicit as a
permutation parameter wherever the source iterates over a map.
-/

namespace Fissio

/-- Sentinel error values declared in core/errors.go. -/
inductive Sentinel where
  | nodeNotFound
  | toolNotFound
  | modelNotFound
  | invalidConfig
  | executionFailed
  | maxIterations
  | cyclicDependency
  | invalidEdge
  | timeout
  | llmRequest
deriving DecidableEq, Repr

/-- Go error values relevant to the engine: the sentinel errors of
core/errors.go, fresh errors created by fmt.Errorf (identified by their
message, never equal to any sentinel), and core.AgentError wrapping an
inner error with an operation tag and a node id. -/
inductive GoErr where
  | sentinel (s : Sentinel)
  | fmtError (msg : String)
  | agentError (op : String) (node : String) (err : GoErr)
deriving DecidableEq, Repr

/-- errors.Is for the error shapes above, with a sentinel target:
equality succeeds only on the very sentinel value, AgentError.Unwrap
exposes the wrapped error, and fmt.Errorf errors (created without %w)
unwrap to nothing and are fresh values distinct from every sentinel. -/
def errorsIs : GoErr → Sentinel → Bool
  | .sentinel s, t => s == t
  | .fmtError _, _ => false
  | .agentError _ _ e, t => errorsIs e t

/-- core.NewAgentError. -/
def newAgentError (op node : String) (err : GoErr) : GoErr :=
  .agentError op node err

/-- core.ToolCall. -/
structure ToolCall where
  id : String
  name : String
  arguments : String
deriving DecidableEq, Repr

/-- core.ToolResult. -/
structure ToolResult where
  toolCallID : String
  content : String
  isError : Bool
deriving DecidableEq, Repr

/-- core.NewToolResult. -/
def newToolResult (toolCallID content : String) : ToolResult :=
  { toolCallID := toolCallID, content := content, isError := false }

/-- core.NewToolError. -/
def newToolError (toolCallID errMsg : String) : ToolResult :=
  { toolCallID := toolCallID, content := errMsg, isError := true }

/-- core.ToolSchema. -/
structure ToolSchema where
  name : String
  description : String
  parameters : String
deriving DecidableEq, Repr

/-- core.Message (role is the Go string constant). -/
structure CoreMessage where
  role : String
  content : String
  name : String
  toolCallID : String
deriving DecidableEq, Repr

/-- core.NewUserMessage. -/
def newUserMessage (content : String) : CoreMessage :=
  { role := "user", content := content, name := "", toolCallID := "" }

/-- core.NewAssistantMessage. -/
def newAssistantMessage (content : String) : CoreMessage :=
  { role := "assistant", content := content, name := "", toolCallID := "" }

/-- core.NewToolMessage. -/
def newToolMessage (toolCallID content : String) : CoreMessage :=
  { role := "tool", content := content, name := "", toolCallID := toolCallID }

/-- llm.Usage. -/
structure Usage where
  promptTokens : Int
  completionTokens : Int
  totalTokens : Int
deriving DecidableEq, Repr

/-- llm.LLMResponse. -/
structure LLMResponse where
  content : String
  finishReason : String
  usage : Usage
deriving DecidableEq, Repr

/-- llm.ChatResponse. -/
structure ChatResponse where
  content : String
  toolCalls : List ToolCall
  finishReason : String
  usage : Usage
deriving DecidableEq, Repr

/-- llm.ChatResponse.HasToolCalls: len(r.ToolCalls) > 0. -/
def ChatResponse.hasToolCalls (r : ChatResponse) : Bool :=
  decide (0 < r.toolCalls.length)

/-- core.ModelConfig (the float64 sampling fields are omitted: no claim
touches them). -/
structure ModelConfig where
  name : String
  provider : String
  maxTokens : Int
deriving DecidableEq, Repr

/-- core.DefaultModelConfig (temperature omitted as above). -/
def defaultModelConfig (name : String) : ModelConfig :=
  { name := name, provider := "", maxTokens := 4096 }

/-- tools.Tool: a name, a schema and an executable body.  The Go
Execute(ctx, args) (string, error) is modelled with the error as its
message string. -/
structure Tool where
  name : String
  description : String
  parameters : String
  execute : String → Except String String

/-- tools.ToSchema. -/
def toSchema (t : Tool) : ToolSchema :=
  { name := t.name, description := t.description, parameters := t.parameters }

/-- tools.ToSchemas. -/
def toSchemas (ts : List Tool) : List ToolSchema :=
  ts.map toSchema

/-- A Go map built by inserting each list element in order, queried by
name: the result is the value of the last insertion with that key.  Used
for the tool registry map as well as the per-call tool map in
executeToolCalls. -/
def toolMapLookup (ts : List Tool) (n : String) : Option Tool :=
  ts.foldl (fun acc t => if t.name = n then some t else acc) none

/-- tools.Registry.GetMultiple: look every name up, failing on the first
missing one with the registry.get ToolNotFound error. -/
def registryGetMultiple (reg : List Tool) : List String → Except GoErr (List Tool)
  | [] => .ok []
  | n :: ns =>
    match toolMapLookup reg n with
    | none => .error (newAgentError "registry.get" "" (.sentinel .toolNotFound))
    | some t =>
      match registryGetMultiple reg ns with
      | .error e => .error e
      | .ok ts => .ok (t :: ts)

/-- engine.NodeInput (metadata omitted: untyped and untouched by claims). -/
structure NodeInput where
  nodeID : String
  content : String
  sources : List String
deriving DecidableEq, Repr

/-- engine.NodeOutput (metadata and wall-clock duration omitted). -/
structure NodeOutput where
  nodeID : String
  content : String
  nextNodes : List String
  tokensIn : Int
  tokensOut : Int
deriving DecidableEq, Repr

/-- config.NodeConfig; the Go NodeType is an int with nine named
constants 0..8 declared by iota. -/
structure NodeConfig where
  id : String
  type : Int
  prompt : String
  model : ModelConfig
  tools : List String
  maxIter : Int
  nextNodes : List String
  targetNodes : List String
deriving DecidableEq, Repr

/-- config.NodeLLM. -/
def nodeLLM : Int := 0

/-- config.NodeWorker. -/
def nodeWorker : Int := 1

/-- config.NodeRouter. -/
def nodeRouter : Int := 2

/-- config.NodeGate. -/
def nodeGate : Int := 3

/-- config.NodeAggregator. -/
def nodeAggregator : Int := 4

/-- config.NodeOrchestrator. -/
def nodeOrchestrator : Int := 5

/-- config.NodeEvaluator. -/
def nodeEvaluator : Int := 6

/-- config.NodeSynthesizer. -/
def nodeSynthesizer : Int := 7

/-- config.NodeCoordinator. -/
def nodeCoordinator : Int := 8

/-- The nine node types for which executor.Execute declares a handler. -/
def knownNodeTypes : List Int :=
  [nodeLLM, nodeWorker, nodeRouter, nodeGate, nodeAggregator,
   nodeOrchestrator, nodeEvaluator, nodeSynthesizer, nodeCoordinator]

/-- config.NodeType.String. -/
def nodeTypeString (t : Int) : String :=
  if t = nodeLLM then "llm"
  else if t = nodeWorker then "worker"
  else if t = nodeRouter then "router"
  else if t = nodeGate then "gate"
  else if t = nodeAggregator then "aggregator"
  else if t = nodeOrchestrator then "orchestrator"
  else if t = nodeEvaluator then "evaluator"
  else if t = nodeSynthesizer then "synthesizer"
  else if t = nodeCoordinator then "coordinator"
  else "unknown"

/-- config.EdgeConfig restricted to the endpoint node ids (ports,
edge type and condition are never read by the engine). -/
structure EdgeConfig where
  fromNode : String
  toNode : String
deriving DecidableEq, Repr

/-- config.PipelineConfig. -/
structure PipelineConfig where
  id : String
  name : String
  nodes : List NodeConfig
  edges : List EdgeConfig
  entryNode : String
deriving DecidableEq, Repr

/-- engine.ModelResolver: a default model and a node-id keyed override
map (modelled as an insertion list with last-write-wins lookup). -/
structure ModelResolver where
  defaultModel : ModelConfig
  overrides : List (String × ModelConfig)

/-- engine.ModelResolver.Resolve. -/
def ModelResolver.resolve (r : ModelResolver) (node : NodeConfig) : ModelConfig :=
  match r.overrides.foldl
      (fun acc p => if p.1 = node.id then some p.2 else acc) none with
  | some override => override
  | none => if node.model.name ≠ "" then node.model else r.defaultModel

/-- engine.ModelResolver.ResolveModelName. -/
def ModelResolver.resolveModelName (r : ModelResolver) (node : NodeConfig) : String :=
  (r.resolve node).name

/-- llm.Client as consumed by the executor: the provider is an external
deterministic function of its inputs (the environment assumed by the
spec's determinism and termination claims). -/
structure Client where
  chat : String → String → String → LLMResponse
  chatWithTools : String → String → List CoreMessage → List ToolSchema → ChatResponse

/-- engine.Executor.executeSingleToolCall: a tool missing from the node
tool map or an execution error yields an error-marked result carrying the
message; a normal result carries the tool output. -/
def executeSingleToolCall (call : ToolCall) (nodeTools : List Tool) : ToolResult :=
  match toolMapLookup nodeTools call.name with
  | none => newToolError call.id ("tool not found: " ++ call.name)
  | some t =>
    match t.execute call.arguments with
    | .error e => newToolError call.id e
    | .ok result => newToolResult call.id result

/-- engine.Executor.executeToolCalls: sequential execution, one result per
call, in the order of the calls. -/
def executeToolCalls (calls : List ToolCall) (nodeTools : List Tool) : List ToolResult :=
  calls.map (fun call => executeSingleToolCall call nodeTools)

/-- The worker loop of engine.Executor.executeWorker, fuel = remaining
iterations of the Go for-loop.  Besides the Go result, the second
component records the transcript of chat responses received, one per
ChatWithTools call made, so that claims about the number of model turns
can be stated. -/
def workerLoopT (chat : List CoreMessage → ChatResponse) (nodeTools : List Tool)
    (nodeID : String) :
    List CoreMessage → Int → Int → Nat → Except GoErr NodeOutput × List ChatResponse
  | _, _, _, 0 =>
    (.error (newAgentError "executor.worker" nodeID (.sentinel .maxIterations)), [])
  | msgs, totalIn, totalOut, n + 1 =>
    let resp := chat msgs
    let totalIn1 := totalIn + resp.usage.promptTokens
    let totalOut1 := totalOut + resp.usage.completionTokens
    if resp.hasToolCalls = false then
      (.ok { nodeID := "", content := resp.content, nextNodes := [],
             tokensIn := totalIn1, tokensOut := totalOut1 }, [resp])
    else
      let toolResults := executeToolCalls resp.toolCalls nodeTools
      let msgs1 := msgs ++ newAssistantMessage resp.content ::
        toolResults.map (fun tr => newToolMessage tr.toolCallID tr.content)
      let rest := workerLoopT chat nodeTools nodeID msgs1 totalIn1 totalOut1 n
      (rest.1, resp :: rest.2)

/-- engine.Executor.executeWorker (transcript-carrying form): look the
declared tools up, extract schemas, seed the history with one user
message, and run the loop for maxIter iterations (10 when the configured
bound is not positive). -/
def executeWorkerT (client : Client) (resolver : ModelResolver) (registry : List Tool)
    (node : NodeConfig) (input : NodeInput) : Except GoErr NodeOutput × List ChatResponse :=
  match registryGetMultiple registry node.tools with
  | .error e => (.error e, [])
  | .ok nodeTools =>
    let model := resolver.resolveModelName node
    let schemas := toSchemas nodeTools
    let maxIter : Int := if node.maxIter ≤ 0 then 10 else node.maxIter
    workerLoopT (fun msgs => client.chatWithTools model node.prompt msgs schemas)
      nodeTools node.id [newUserMessage input.content] 0 0 maxIter.toNat

/-- engine.Executor.executeWorker, result only. -/
def executeWorker (client : Client) (resolver : ModelResolver) (registry : List Tool)
    (node : NodeConfig) (input : NodeInput) : Except GoErr NodeOutput :=
  (executeWorkerT client resolver registry node input).1

/-- engine.Executor.executeLLM. -/
def executeLLM (client : Client) (resolver : ModelResolver)
    (node : NodeConfig) (input : NodeInput) : Except GoErr NodeOutput :=
  let resp := client.chat (resolver.resolveModelName node) node.prompt input.content
  .ok { nodeID := "", content := resp.content, nextNodes := [],
        tokensIn := resp.usage.promptTokens, tokensOut := resp.usage.completionTokens }

/-- fmt.Sprintf %v on a Go string slice: space-separated inside brackets. -/
def goFmtStrings (l : List String) : String :=
  "[" ++ String.intercalate " " l ++ "]"

/-- engine.Executor.executeRouter: the completion content is returned as
the content and as a one-element next-nodes list. -/
def executeRouter (client : Client) (resolver : ModelResolver)
    (node : NodeConfig) (input : NodeInput) : Except GoErr NodeOutput :=
  let prompt := node.prompt ++ "\n\nAvailable routes: " ++ goFmtStrings node.nextNodes
  let resp := client.chat (resolver.resolveModelName node) prompt input.content
  .ok { nodeID := "", content := resp.content, nextNodes := [resp.content],
        tokensIn := resp.usage.promptTokens, tokensOut := resp.usage.completionTokens }

/-- engine.Executor.executeGate: pass-through. -/
def executeGate (input : NodeInput) : Except GoErr NodeOutput :=
  .ok { nodeID := "", content := input.content, nextNodes := [],
        tokensIn := 0, tokensOut := 0 }

/-- engine.Executor.executeAggregator: pass-through. -/
def executeAggregator (input : NodeInput) : Except GoErr NodeOutput :=
  .ok { nodeID := "", content := input.content, nextNodes := [],
        tokensIn := 0, tokensOut := 0 }

/-- engine.Executor.executeOrchestrator: content from the model, fan-out
to the declared target nodes. -/
def executeOrchestrator (client : Client) (resolver : ModelResolver)
    (node : NodeConfig) (input : NodeInput) : Except GoErr NodeOutput :=
  let prompt := node.prompt ++ "\n\nTarget nodes: " ++ goFmtStrings node.targetNodes
  let resp := client.chat (resolver.resolveModelName node) prompt input.content
  .ok { nodeID := "", content := resp.content, nextNodes := node.targetNodes,
        tokensIn := resp.usage.promptTokens, tokensOut := resp.usage.completionTokens }

/-- engine.Executor.executeEvaluator. -/
def executeEvaluator (client : Client) (resolver : ModelResolver)
    (node : NodeConfig) (input : NodeInput) : Except GoErr NodeOutput :=
  let resp := client.chat (resolver.resolveModelName node) node.prompt input.content
  .ok { nodeID := "", content := resp.content, nextNodes := [],
        tokensIn := resp.usage.promptTokens, tokensOut := resp.usage.completionTokens }

/-- engine.Executor.executeSynthesizer. -/
def executeSynthesizer (client : Client) (resolver : ModelResolver)
    (node : NodeConfig) (input : NodeInput) : Except GoErr NodeOutput :=
  let resp := client.chat (resolver.resolveModelName node) node.prompt input.content
  .ok { nodeID := "", content := resp.content, nextNodes := [],
        tokensIn := resp.usage.promptTokens, tokensOut := resp.usage.completionTokens }

/-- engine.Executor.executeCoordinator: no model call, pass the content
through and fan out to the target nodes. -/
def executeCoordinator (node : NodeConfig) (input : NodeInput) : Except GoErr NodeOutput :=
  .ok { nodeID := "", content := input.content, nextNodes := node.targetNodes,
        tokensIn := 0, tokensOut := 0 }

/-- engine.Executor.Execute: dispatch on the node type over the nine
declared handlers; an unrecognized type fails with an executor.execute
AgentError wrapping a fresh fmt.Errorf error; on success the output is
stamped with the node id. -/
def executorExecute (client : Client) (resolver : ModelResolver) (registry : List Tool)
    (node : NodeConfig) (input : NodeInput) : Except GoErr NodeOutput :=
  let handled : Except GoErr NodeOutput :=
    if node.type = nodeLLM then executeLLM client resolver node input
    else if node.type = nodeWorker then executeWorker client resolver registry node input
    else if node.type = nodeRouter then executeRouter client resolver node input
    else if node.type = nodeGate then executeGate input
    else if node.type = nodeAggregator then executeAggregator input
    else if node.type = nodeOrchestrator then executeOrchestrator client resolver node input
    else if node.type = nodeEvaluator then executeEvaluator client resolver node input
    else if node.type = nodeSynthesizer then executeSynthesizer client resolver node input
    else if node.type = nodeCoordinator then executeCoordinator node input
    else .error (newAgentError "executor.execute" node.id
      (.fmtError ("unknown node type: " ++ nodeTypeString node.type)))
  match handled with
  | .error e => .error e
  | .ok output => .ok { output with nodeID := node.id }

/-- engine.ExecutionContext (the unused Variables map is omitted). -/
structure ExecutionContext where
  input : NodeInput
  history : List NodeOutput
deriving DecidableEq, Repr

/-- engine.ExecutionContext.GetOutput: scan the history backwards for the
most recent output of the node. -/
def getOutput (ctx : ExecutionContext) (nodeID : String) : Option NodeOutput :=
  ctx.history.reverse.find? (fun o => o.nodeID = nodeID)

/-- engine.Span as constructed in Engine.Run (span_id, node id and type,
literal input and output, token counts; wall-clock fields omitted).  The
Go NodeType-to-string conversion string(node.Type) is kept as the raw
type value. -/
structure Span where
  spanID : String
  nodeID : String
  nodeType : Int
  input : String
  output : String
  tokensIn : Int
  tokensOut : Int
deriving DecidableEq, Repr

/-- engine.EngineOutput; outputs is the Go map modelled as an association
list in insertion order with at most one entry per key. -/
structure EngineOutput where
  success : Bool
  finalNode : String
  content : String
  outputs : List (String × NodeOutput)
  spans : List Span
  error : Option GoErr
deriving DecidableEq, Repr

/-- NewEngine node map: nodeMap of id to node built by insertion, queried
with last-write-wins (Go map assignment semantics). -/
def nodeMapLookup (nodes : List NodeConfig) (id : String) : Option NodeConfig :=
  nodes.foldl (fun acc n => if n.id = id then some n else acc) none

/-- One step of building the NewEngine edges map:
edges of e.From.Node gets e.To.Node appended. -/
def upsertEdge (m : List (String × List String)) (f t : String) :
    List (String × List String) :=
  if m.any (fun p => p.1 = f) then
    m.map (fun p => if p.1 = f then (p.1, p.2 ++ [t]) else p)
  else
    m ++ [(f, [t])]

/-- NewEngine edges map: fold the declared edges into an association list
keyed by source node (one entry per key, targets in declaration order). -/
def edgesMapOf (edges : List EdgeConfig) : List (String × List String) :=
  edges.foldl (fun m e => upsertEdge m e.fromNode e.toNode) []

/-- Lookup in the edges map (a missing key reads as the empty Go slice). -/
def edgesLookup (m : List (String × List String)) (id : String) : List String :=
  (m.foldl (fun acc p => if p.1 = id then some p.2 else acc) none).getD []

/-- engine.Engine.findSourceNodes (first engine.go copy): iterate the
edges map — the iteration order of the Go map is the explicit parameter
sigma — and collect the source of every edge pointing at the node, once
per matching edge, in iteration order. -/
def findSourceNodes : List (String × List String) → String → List String
  | [], _ => []
  | p :: sigma, nodeID =>
    (p.2.filter (fun t => t = nodeID)).map (fun _ => p.1) ++
      findSourceNodes sigma nodeID

/-- strings.Join with a separator: empty for the empty list, otherwise
the elements interleaved with the separator. -/
def joinSep (sep : String) : List String → String
  | [] => ""
  | [s] => s
  | s :: rest => s ++ sep ++ joinSep sep rest

/-- engine.Engine.buildContentFromSources (first engine.go copy): the
recorded outputs of the sources, joined by a blank line. -/
def buildContentFromSources (sources : List String) (ctx : ExecutionContext) : String :=
  joinSep "\n\n"
    (sources.filterMap (fun f => (getOutput ctx f).map (fun o => o.content)))

/-- engine.Engine.buildNodeInput (first engine.go copy): fan-in merge with
fallback to the original run input when the merged content is empty. -/
def buildNodeInputA (sigma : List (String × List String)) (nodeID : String)
    (ctx : ExecutionContext) : NodeInput :=
  let sources := findSourceNodes sigma nodeID
  let content := buildContentFromSources sources ctx
  { nodeID := nodeID,
    content := if content = "" then ctx.input.content else content,
    sources := sources }

/-- The content accumulation step of the second engine.go copy of
buildNodeInput: append a blank-line separator only when content has
already accumulated, then the next recorded output. -/
def mergeStep (c s : String) : String :=
  (if c ≠ "" then c ++ "\n\n" else c) ++ s

/-- The inner loop of the second buildNodeInput copy over the targets of
one edges-map entry with source f: every edge to the node contributes f
to sources, and its recorded output (when present) to the content. -/
def fanInInner (ctx : ExecutionContext) (nodeID f : String) :
    List String → List String × String → List String × String
  | [], acc => acc
  | t :: ts, acc =>
    fanInInner ctx nodeID f ts
      (if t ≠ nodeID then acc
       else
         match getOutput ctx f with
         | none => (acc.1 ++ [f], acc.2)
         | some out => (acc.1 ++ [f], mergeStep acc.2 out.content))

/-- The outer loop of the second buildNodeInput copy over the edges map
in iteration order sigma. -/
def fanInB (ctx : ExecutionContext) (nodeID : String) :
    List (String × List String) → List String × String → List String × String
  | [], acc => acc
  | p :: sigma, acc => fanInB ctx nodeID sigma (fanInInner ctx nodeID p.1 p.2 acc)

/-- engine.Engine.buildNodeInput (second engine.go copy, the one inlined
in Run): a single pass over the edges map collecting sources and merged
content, with the same empty-content fallback to the run input. -/
def buildNodeInputB (sigma : List (String × List String)) (nodeID : String)
    (ctx : ExecutionContext) : NodeInput :=
  let acc := fanInB ctx nodeID sigma ([], "")
  { nodeID := nodeID,
    content := if acc.2 = "" then ctx.input.content else acc.2,
    sources := acc.1 }

/-- engine.Engine.getNextNodes: the output's explicit next hops when
non-empty, else the static out-edges of the node. -/
def getNextNodes (edges : List (String × List String)) (nodeID : String)
    (output : NodeOutput) : List String :=
  if 0 < output.nextNodes.length then output.nextNodes else edgesLookup edges nodeID

/-- engine.Engine.findEntryNode: the first declared node that no edge
targets, else the first declared node, else the empty string. -/
def findEntryNode (p : PipelineConfig) : String :=
  match p.nodes.find? (fun n => !(p.edges.any (fun e => e.toNode = n.id))) with
  | some n => n.id
  | none =>
    match p.nodes with
    | n :: _ => n.id
    | [] => ""

/-- Entry selection at the top of engine.Engine.Run: the declared entry
node when non-empty, otherwise findEntryNode. -/
def entrySelect (p : PipelineConfig) : String :=
  if p.entryNode ≠ "" then p.entryNode else findEntryNode p

/-- engine.Engine.findFinalOutput: the last output appended to the
execution history, or the zero NodeOutput when nothing ran. -/
def findFinalOutput (history : List NodeOutput) : NodeOutput :=
  match history.getLast? with
  | some o => o
  | none => { nodeID := "", content := "", nextNodes := [], tokensIn := 0, tokensOut := 0 }

/-- The per-run engine value: precomputed node and edge maps plus the
executor dependencies, the original input string, and the Go map
iteration order used by buildNodeInput. -/
structure EngineM where
  client : Client
  resolver : ModelResolver
  registry : List Tool
  nodeMap : List NodeConfig
  edges : List (String × List String)
  sigma : List (String × List String)
  inputStr : String

/-- The mutable state of the frontier loop in engine.Engine.Run. -/
structure RunState where
  outputs : List (String × NodeOutput)
  spans : List Span
  history : List NodeOutput
  visited : List String
  step : Nat

/-- Insert into the outputs map (Go map assignment: replace an existing
key, else append). -/
def insertOutput (outs : List (String × NodeOutput)) (id : String) (out : NodeOutput) :
    List (String × NodeOutput) :=
  if outs.any (fun p => p.1 = id) then
    outs.map (fun p => if p.1 = id then (p.1, out) else p)
  else
    outs ++ [(id, out)]

/-- The inner loop of engine.Engine.Run over one frontier: skip visited or
undeclared ids, execute each remaining node, and either return the
failure EngineOutput together with the node error, or the advanced state
and the collected next frontier. -/
def runNodes (eng : EngineM) :
    List String → RunState → List String →
    Except (EngineOutput × GoErr) (RunState × List String)
  | [], st, acc => .ok (st, acc)
  | id :: rest, st, acc =>
    if id ∈ st.visited then
      runNodes eng rest st acc
    else
      let st1 : RunState := { st with visited := st.visited ++ [id] }
      match nodeMapLookup eng.nodeMap id with
      | none => runNodes eng rest st1 acc
      | some node =>
        let st2 : RunState := { st1 with step := st1.step + 1 }
        let ctx : ExecutionContext :=
          { input := { nodeID := "", content := eng.inputStr, sources := [] },
            history := st2.history }
        let nodeInput := buildNodeInputB eng.sigma id ctx
        match executorExecute eng.client eng.resolver eng.registry node nodeInput with
        | .error e =>
          .error ({ success := false, finalNode := "", content := "",
                    outputs := st2.outputs, spans := st2.spans, error := some e }, e)
        | .ok output =>
          let st3 : RunState := { st2 with step := st2.step + 1 }
          let span : Span :=
            { spanID := "span_" ++ toString st3.step, nodeID := id,
              nodeType := node.type, input := nodeInput.content,
              output := output.content, tokensIn := output.tokensIn,
              tokensOut := output.tokensOut }
          let st4 : RunState :=
            { st3 with
              spans := st3.spans ++ [span],
              outputs := insertOutput st3.outputs id output,
              history := st3.history ++ [output] }
          runNodes eng rest st4 (acc ++ getNextNodes eng.edges id output)

/-- The successful return at the bottom of engine.Engine.Run. -/
def finishRun (st : RunState) : EngineOutput × Option GoErr :=
  let fo := findFinalOutput st.history
  ({ success := true, finalNode := fo.nodeID, content := fo.content,
     outputs := st.outputs, spans := st.spans, error := none }, none)

/-- The outer frontier loop of engine.Engine.Run.  The fuel only bounds
the number of frontier rounds; engineRun supplies enough for any
pipeline, since every round that yields a non-empty next frontier
executes at least one previously unvisited declared node. -/
def runLoop (eng : EngineM) : Nat → List String → RunState → EngineOutput × Option GoErr
  | 0, _, st => finishRun st
  | fuel + 1, frontier, st =>
    if frontier.length = 0 then finishRun st
    else
      match runNodes eng frontier st [] with
      | .error (out, e) => (out, some e)
      | .ok (st1, next) => runLoop eng fuel next st1

/-- engine.Engine.Run for the engine built by NewEngine from a pipeline:
select the entry node (nil result plus NodeNotFound AgentError when none),
then advance the frontier from the entry.  sigma is the Go map iteration
order used for fan-in merging during this run; input is the run input
string.  The Go pair of EngineOutput pointer and error is returned as a
pair of options. -/
def engineRun (p : PipelineConfig) (client : Client) (resolver : ModelResolver)
    (registry : List Tool) (sigma : List (String × List String)) (input : String) :
    Option EngineOutput × Option GoErr :=
  let entry := entrySelect p
  if entry = "" then
    (none, some (newAgentError "engine.run" "" (.sentinel .nodeNotFound)))
  else
    let eng : EngineM :=
      { client := client, resolver := resolver, registry := registry,
        nodeMap := p.nodes, edges := edgesMapOf p.edges, sigma := sigma,
        inputStr := input }
    let st0 : RunState :=
      { outputs := [], spans := [], history := [], visited := [], step := 0 }
    let res := runLoop eng (p.nodes.length + 2) [entry] st0
    (some res.1, res.2)

/-- llm.Message. -/
structure LlmMessage where
  role : String
  content : String
deriving DecidableEq, Repr

/-- llm.StreamChunk. -/
structure StreamChunk where
  content : String
  toolCalls : List ToolCall
  done : Bool
  error : Option GoErr
  usage : Option Usage
deriving DecidableEq, Repr

/-- One configured provider client held by llm.UnifiedClient.  The
isOpenAIClient flag records the Go dynamic type (the type assertion
client dot OpenAIClient in ChatStreamWithMessages); only that family
streams natively. -/
structure ProviderClient where
  isOpenAIClient : Bool
  chatWithMessages : String → String → List LlmMessage → Except GoErr ChatResponse
  chatStream : String → String → List LlmMessage → List StreamChunk

/-- llm.UnifiedClient: at most one client per provider family. -/
structure UnifiedClient where
  openai : Option ProviderClient
  anthropic : Option ProviderClient
  ollama : Option ProviderClient

/-- llm.UnifiedClient.defaultClient: the first configured client in the
order OpenAI, Anthropic, Ollama. -/
def defaultClient (u : UnifiedClient) : Option ProviderClient :=
  match u.openai with
  | some c => some c
  | none =>
    match u.anthropic with
    | some c => some c
    | none => u.ollama

/-- strings.HasPrefix, computed on the character data. -/
def strHasPrefix (p s : String) : Bool :=
  p.data.isPrefixOf s.data

/-- strings.TrimPrefix: remove the leading prefix when present. -/
def strTrimPrefix (p s : String) : String :=
  if p.data.isPrefixOf s.data then String.mk (s.data.drop p.data.length) else s

/-- llm.UnifiedClient.resolveClient: first matching configured prefix in
declared order, stripping only the ollama prefix; otherwise the default
fallback client. -/
def resolveClient (u : UnifiedClient) (model : String) :
    Option ProviderClient × String :=
  if strHasPrefix "claude-" model ∧ u.anthropic.isSome then (u.anthropic, model)
  else if strHasPrefix "gpt-" model ∧ u.openai.isSome then (u.openai, model)
  else if strHasPrefix "o1-" model ∧ u.openai.isSome then (u.openai, model)
  else if strHasPrefix "ollama/" model ∧ u.ollama.isSome then
    (u.ollama, strTrimPrefix "ollama/" model)
  else (defaultClient u, model)

/-- llm.UnifiedClient.ChatStreamWithMessages: native streaming when the
resolved client is an OpenAIClient; otherwise a synthesized one-shot
stream — on success one content chunk then one done chunk carrying usage,
on failure a single done chunk carrying the error.  none models the Go
nil-client dereference when no provider is configured. -/
def chatStreamWithMessages (u : UnifiedClient) (model system : String)
    (msgs : List LlmMessage) : Option (List StreamChunk) :=
  let r := resolveClient u model
  r.1.map (fun c =>
    if c.isOpenAIClient then c.chatStream r.2 system msgs
    else
      match c.chatWithMessages r.2 system msgs with
      | .error e =>
        [{ content := "", toolCalls := [], done := true, error := some e, usage := none }]
      | .ok resp =>
        [{ content := resp.content, toolCalls := [], done := false,
           error := none, usage := none },
         { content := "", toolCalls := [], done := true, error := none,
           usage := some resp.usage }])

/-!
Shared test fixtures: a provider stub returning fixed data, an empty
model config, and the default resolver an engine gets when none is
configured.
-/

/-- A provider stub whose completions are empty and carry no usage. -/
def constClient : Client :=
  { chat := fun _ _ _ => { content := "", finishReason := "", usage := ⟨0, 0, 0⟩ },
    chatWithTools := fun _ _ _ _ =>
      { content := "", toolCalls := [], finishReason := "", usage := ⟨0, 0, 0⟩ } }

/-- The resolver NewEngine builds when none is configured. -/
def resolverD : ModelResolver :=
  { defaultModel := defaultModelConfig "gpt-4", overrides := [] }

/-- A node model config with no name (resolution falls to the default). -/
def emptyModel : ModelConfig := { name := "", provider := "", maxTokens := 0 }

/-!
Helper lemmas about strings and the basic executor functions.
-/

/-- A string is empty exactly when its length is zero. -/
theorem string_length_eq_zero (s : String) : s.length = 0 ↔ s = "" := by
  constructor
  · intro h
    cases s with
    | mk data =>
      simp [String.length] at h
      simp [h]
  · intro h
    simp [h]

/-- Appending to a non-empty string stays non-empty. -/
theorem string_append_ne_empty (s t : String) (h : s ≠ "") : s ++ t ≠ "" := by
  intro hc
  have h2 := congrArg String.length hc
  simp only [String.length_append] at h2
  have h3 : s.length = 0 := by
    have h0 : ("" : String).length = 0 := rfl
    omega
  exact h ((string_length_eq_zero s).mp h3)

/-- hasToolCalls is false exactly when the tool-call list is empty. -/
theorem hasToolCalls_false_iff (r : ChatResponse) :
    r.hasToolCalls = false ↔ r.toolCalls = [] := by
  simp [ChatResponse.hasToolCalls, List.length_eq_zero]

/-- Every tool result carries the id of the call that produced it. -/
theorem executeSingleToolCall_id (call : ToolCall) (ts : List Tool) :
    (executeSingleToolCall call ts).toolCallID = call.id := by
  unfold executeSingleToolCall
  cases hl : toolMapLookup ts call.name with
  | none => simp [newToolError]
  | some t =>
    cases he : t.execute call.arguments with
    | error e => simp [he, newToolError]
    | ok r => simp [he, newToolResult]

/-- When registry lookup fails, the error is the registry.get
ToolNotFound AgentError. -/
theorem registryGetMultiple_error_shape (reg : List Tool) (names : List String) :
    ∀ e, registryGetMultiple reg names = .error e →
      e = newAgentError "registry.get" "" (.sentinel .toolNotFound) := by
  induction names with
  | nil => intro e h; simp [registryGetMultiple] at h
  | cons n ns ih =>
    intro e h
    cases hl : toolMapLookup reg n with
    | none =>
      simp [registryGetMultiple, hl] at h
      exact h.symm
    | some t =>
      cases hr : registryGetMultiple reg ns with
      | error e2 =>
        simp [registryGetMultiple, hl, hr] at h
        subst h
        exact ih _ hr
      | ok ts2 => simp [registryGetMultiple, hl, hr] at h

/-- C9: for a streaming chat request whose model resolves to a provider
client without native streaming, the unified client synthesizes the
stream: when the non-streaming chat succeeds, exactly two chunks — a
content chunk equal to the response content, then a done chunk carrying
the usage — so the concatenated stream content equals the non-streaming
result; when it fails, exactly one done chunk carrying the error. -/
theorem stream_fallback_spec (u : UnifiedClient) (model system : String)
    (msgs : List LlmMessage) (c : ProviderClient) (rm : String)
    (hres : resolveClient u model = (some c, rm))
    (hnat : c.isOpenAIClient = false) :
    (∀ resp, c.chatWithMessages rm system msgs = .ok resp →
      chatStreamWithMessages u model system msgs =
        some [{ content := resp.content, toolCalls := [], done := false,
                error := none, usage := none },
              { content := "", toolCalls := [], done := true, error := none,
                usage := some resp.usage }] ∧
      (chatStreamWithMessages u model system msgs).map
          (fun l => String.join (l.map StreamChunk.content)) = some resp.content) ∧
    (∀ e, c.chatWithMessages rm system msgs = .error e →
      chatStreamWithMessages u model system msgs =
        some [{ content := "", toolCalls := [], done := true, error := some e,
                usage := none }]) := by
  constructor
  · intro resp hok
    have hstream : chatStreamWithMessages u model system msgs =
        some [{ content := resp.content, toolCalls := [], done := false,
                error := none, usage := none },
              { content := "", toolCalls := [], done := true, error := none,
                usage := some resp.usage }] := by
      simp [chatStreamWithMessages, hres, hnat, hok]
    refine ⟨hstream, ?_⟩
    rw [hstream]
    simp [String.join]
  · intro e herr
    simp [chatStreamWithMessages, hres, hnat, herr]

/-- C9 witness: a unified client holding only a Claude-family client (no
native streaming) at a claude-prefixed model. -/
def anthropicStub : ProviderClient :=
  { isOpenAIClient := false,
    chatWithMessages := fun _ _ _ =>
      .ok { content := "hi", toolCalls := [], finishReason := "stop",
            usage := ⟨3, 4, 7⟩ },
    chatStream := fun _ _ _ => [] }

/-- The unified client for the C9 witness. -/
def unifiedAnthropicOnly : UnifiedClient :=
  { openai := none, anthropic := some anthropicStub, ollama := none }

/-- C9 witness: the synthesized stream of the Claude-only unified client
is the content chunk followed by the done chunk with usage. -/
theorem stream_fallback_spec_witness :
    chatStreamWithMessages unifiedAnthropicOnly "claude-3" "sys" [] =
      some [{ content := "hi", toolCalls := [], done := false, error := none,
              usage := none },
            { content := "", toolCalls := [], done := true, error := none,
              usage := some ⟨3, 4, 7⟩ }] :=
  ((stream_fallback_spec unifiedAnthropicOnly "claude-3" "sys" [] anthropicStub
      "claude-3" (by rfl) rfl).1
    { content := "hi", toolCalls := [], finishReason := "stop", usage := ⟨3, 4, 7⟩ }
    rfl).1

/-- C8 counterexample: a node of type 42 fails with an executor.execute
AgentError wrapping a fresh fmt.Errorf value, and errors.Is against
ErrInvalidConfig is false — the claim asserts it holds. -/
def nodeBad : NodeConfig :=
  { id := "nx", type := 42, prompt := "", model := emptyModel, tools := [],
    maxIter := 0, nextNodes := [], targetNodes := [] }

/-- C8 counterexample theorem: the concrete unknown-type failure is not in
the ErrInvalidConfig family. -/
theorem unknown_node_type_counterexample :
    executorExecute constClient resolverD [] nodeBad
        { nodeID := "nx", content := "in", sources := [] } =
      .error (newAgentError "executor.execute" "nx"
        (.fmtError "unknown node type: unknown")) ∧
    errorsIs (newAgentError "executor.execute" "nx"
        (.fmtError "unknown node type: unknown")) .invalidConfig = false :=
  ⟨rfl, rfl⟩

/-- C8 amended: for a node whose type is none of the nine recognized
ones, execution fails — independently of the client, resolver and
registry, so no chat or tool call happens — with an executor.execute
AgentError tagged with the node id that wraps a fresh unknown-node-type
error; that error is NOT in the ErrInvalidConfig family. -/
theorem unknown_node_type_amended (client : Client) (resolver : ModelResolver)
    (registry : List Tool) (node : NodeConfig) (input : NodeInput)
    (h : node.type ∉ knownNodeTypes) :
    executorExecute client resolver registry node input =
      .error (newAgentError "executor.execute" node.id
        (.fmtError "unknown node type: unknown")) ∧
    nodeTypeString node.type = "unknown" ∧
    errorsIs (newAgentError "executor.execute" node.id
        (.fmtError "unknown node type: unknown")) .invalidConfig = false := by
  simp only [knownNodeTypes, List.mem_cons, List.not_mem_nil, or_false, not_or] at h
  obtain ⟨h0, h1, h2, h3, h4, h5, h6, h7, h8⟩ := h
  have hs : nodeTypeString node.type = "unknown" := by
    simp [nodeTypeString, h0, h1, h2, h3, h4, h5, h6, h7, h8]
  refine ⟨?_, hs, rfl⟩
  simp [executorExecute, h0, h1, h2, h3, h4, h5, h6, h7, h8, hs]

/-- C8 witness: the amended theorem instantiated at the type-42 node. -/
theorem unknown_node_type_amended_witness :
    nodeBad.type ∉ knownNodeTypes ∧
    executorExecute constClient resolverD [] nodeBad
        { nodeID := "nx", content := "in", sources := [] } =
      .error (newAgentError "executor.execute" nodeBad.id
        (.fmtError "unknown node type: unknown")) :=
  ⟨by decide,
   (unknown_node_type_amended constClient resolverD [] nodeBad
      { nodeID := "nx", content := "in", sources := [] } (by decide)).1⟩

/-- C4: within one worker iteration, every tool call yields exactly one
result carrying its id, in call order; a missing tool or an execution
error yields an error-marked result whose content is the error message;
and when the response has tool calls the loop appends the assistant
message and one tool message per result (with the matching tool_call_id,
in order) and proceeds to the next iteration — tool errors never abort
it. -/
theorem tool_error_feedback :
    (∀ (calls : List ToolCall) (ts : List Tool),
      (executeToolCalls calls ts).map ToolResult.toolCallID =
        calls.map ToolCall.id) ∧
    (∀ (call : ToolCall) (ts : List Tool),
      toolMapLookup ts call.name = none →
      executeSingleToolCall call ts =
        { toolCallID := call.id, content := "tool not found: " ++ call.name,
          isError := true }) ∧
    (∀ (call : ToolCall) (ts : List Tool) (t : Tool) (e : String),
      toolMapLookup ts call.name = some t →
      t.execute call.arguments = .error e →
      executeSingleToolCall call ts =
        { toolCallID := call.id, content := e, isError := true }) ∧
    (∀ (chat : List CoreMessage → ChatResponse) (ts : List Tool) (nid : String)
       (msgs : List CoreMessage) (tIn tOut : Int) (n : Nat),
      (chat msgs).hasToolCalls = true →
      workerLoopT chat ts nid msgs tIn tOut (n + 1) =
        ((workerLoopT chat ts nid
            (msgs ++ newAssistantMessage (chat msgs).content ::
              (executeToolCalls (chat msgs).toolCalls ts).map
                (fun tr => newToolMessage tr.toolCallID tr.content))
            (tIn + (chat msgs).usage.promptTokens)
            (tOut + (chat msgs).usage.completionTokens) n).1,
         chat msgs ::
           (workerLoopT chat ts nid
              (msgs ++ newAssistantMessage (chat msgs).content ::
                (executeToolCalls (chat msgs).toolCalls ts).map
                  (fun tr => newToolMessage tr.toolCallID tr.content))
              (tIn + (chat msgs).usage.promptTokens)
              (tOut + (chat msgs).usage.completionTokens) n).2)) := by
  refine ⟨?_, ?_, ?_, ?_⟩
  · intro calls ts
    induction calls with
    | nil => rfl
    | cons c cs ih =>
      simp [executeToolCalls, executeSingleToolCall_id, ih]
  · intro call ts hl
    simp [executeSingleToolCall, hl, newToolError]
  · intro call ts t e hl he
    simp [executeSingleToolCall, hl, he, newToolError]
  · intro chat ts nid msgs tIn tOut n h
    rw [workerLoopT]
    rw [if_neg (by simp [h])]

/-- C4 witness: the tool-results facts instantiated at a call to a
missing tool, and the loop-continuation fact at a client that always
requests a tool call. -/
def missingCall : ToolCall := { id := "c9", name := "nosuch", arguments := "a" }

/-- A chat oracle that always requests one tool call. -/
def alwaysToolChat : List CoreMessage → ChatResponse := fun _ =>
  { content := "c", toolCalls := [{ id := "tc1", name := "nosuch", arguments := "x" }],
    finishReason := "tool", usage := ⟨1, 1, 2⟩ }

/-- C4 witness theorem. -/
theorem tool_error_feedback_witness :
    toolMapLookup [] missingCall.name = none ∧
    executeSingleToolCall missingCall [] =
      { toolCallID := "c9", content := "tool not found: nosuch", isError := true } ∧
    (alwaysToolChat []).hasToolCalls = true ∧
    workerLoopT alwaysToolChat [] "w" [] 0 0 1 =
      ((workerLoopT alwaysToolChat []
          "w" ([] ++ newAssistantMessage (alwaysToolChat []).content ::
            (executeToolCalls (alwaysToolChat []).toolCalls []).map
              (fun tr => newToolMessage tr.toolCallID tr.content))
          (0 + (alwaysToolChat []).usage.promptTokens)
          (0 + (alwaysToolChat []).usage.completionTokens) 0).1,
       alwaysToolChat [] ::
         (workerLoopT alwaysToolChat []
            "w" ([] ++ newAssistantMessage (alwaysToolChat []).content ::
              (executeToolCalls (alwaysToolChat []).toolCalls []).map
                (fun tr => newToolMessage tr.toolCallID tr.content))
            (0 + (alwaysToolChat []).usage.promptTokens)
            (0 + (alwaysToolChat []).usage.completionTokens) 0).2) :=
  ⟨rfl,
   tool_error_feedback.2.1 missingCall [] rfl,
   rfl,
   tool_error_feedback.2.2.2 alwaysToolChat [] "w" [] 0 0 0 rfl⟩

/-- hasToolCalls is true exactly when the tool-call list is non-empty. -/
theorem hasToolCalls_true_iff (r : ChatResponse) :
    r.hasToolCalls = true ↔ r.toolCalls ≠ [] := by
  rw [Ne, ← hasToolCalls_false_iff]
  cases r.hasToolCalls <;> simp

/-- Full characterization of the worker loop: the transcript never
exceeds the fuel; a successful result is produced exactly by a final
response without tool calls after responses with tool calls, with the
token totals accumulated over the whole transcript; exhaustion yields
the executor.worker MaxIterations error after a full transcript of
tool-calling responses. -/
theorem workerLoopT_char (chat : List CoreMessage → ChatResponse) (ts : List Tool)
    (nid : String) :
    ∀ (fuel : Nat) (msgs : List CoreMessage) (tIn tOut : Int),
    (workerLoopT chat ts nid msgs tIn tOut fuel).2.length ≤ fuel ∧
    (∀ out, (workerLoopT chat ts nid msgs tIn tOut fuel).1 = .ok out →
      ∃ pre last, (workerLoopT chat ts nid msgs tIn tOut fuel).2 = pre ++ [last] ∧
        (∀ x ∈ pre, x.hasToolCalls = true) ∧ last.hasToolCalls = false ∧
        out = { nodeID := "", content := last.content, nextNodes := [],
                tokensIn := tIn +
                  (((workerLoopT chat ts nid msgs tIn tOut fuel).2).map
                    (fun x => x.usage.promptTokens)).sum,
                tokensOut := tOut +
                  (((workerLoopT chat ts nid msgs tIn tOut fuel).2).map
                    (fun x => x.usage.completionTokens)).sum }) ∧
    (∀ e, (workerLoopT chat ts nid msgs tIn tOut fuel).1 = .error e →
      e = newAgentError "executor.worker" nid (.sentinel .maxIterations) ∧
      (workerLoopT chat ts nid msgs tIn tOut fuel).2.length = fuel ∧
      ∀ x ∈ (workerLoopT chat ts nid msgs tIn tOut fuel).2,
        x.hasToolCalls = true) := by
  intro fuel
  induction fuel with
  | zero =>
    intro msgs tIn tOut
    refine ⟨by simp [workerLoopT], ?_, ?_⟩
    · intro out h
      simp [workerLoopT] at h
    · intro e h
      rw [workerLoopT] at h
      injection h with h2
      exact ⟨h2.symm, rfl, by simp [workerLoopT]⟩
  | succ n ih =>
    intro msgs tIn tOut
    by_cases hb : (chat msgs).hasToolCalls = false
    · rw [workerLoopT, if_pos hb]
      refine ⟨by simp, ?_, ?_⟩
      · intro out h
        injection h with h2
        refine ⟨[], chat msgs, by simp, by simp, hb, ?_⟩
        rw [← h2]
        simp
      · intro e h
        simp at h
    · have hb2 : (chat msgs).hasToolCalls = true := by
        cases hx : (chat msgs).hasToolCalls
        · exact absurd hx hb
        · rfl
      rw [workerLoopT, if_neg hb]
      obtain ⟨ihlen, ihok, iherr⟩ :=
        ih (msgs ++ newAssistantMessage (chat msgs).content ::
            (executeToolCalls (chat msgs).toolCalls ts).map
              (fun tr => newToolMessage tr.toolCallID tr.content))
          (tIn + (chat msgs).usage.promptTokens)
          (tOut + (chat msgs).usage.completionTokens)
      refine ⟨?_, ?_, ?_⟩
      · simpa using Nat.succ_le_succ ihlen
      · intro out h
        obtain ⟨pre, last, hsplit, hpre, hlast, hout⟩ := ihok out h
        refine ⟨chat msgs :: pre, last, by simp [hsplit], ?_, hlast, ?_⟩
        · intro x hx
          rcases List.mem_cons.mp hx with hx1 | hx2
          · rw [hx1]; exact hb2
          · exact hpre x hx2
        · rw [hout]
          simp only [hsplit, List.map_cons, List.sum_cons, NodeOutput.mk.injEq,
            true_and, and_true]
          constructor <;> omega
      · intro e h
        obtain ⟨he, hlen2, hall⟩ := iherr e h
        refine ⟨he, by simpa using hlen2, ?_⟩
        intro x hx
        rcases List.mem_cons.mp hx with hx1 | hx2
        · rw [hx1]; exact hb2
        · exact hall x hx2

/-- C1: for every Worker execution whose declared tools all resolve, with
the effective bound maxIter (10 when the configured bound is not
positive): the loop makes at most maxIter ChatWithTools calls (the
transcript records one response per call); it succeeds exactly when some
response in the transcript has no tool calls — the final one — with the
output content equal to that response content and tokens_in/tokens_out
the sums of prompt/completion tokens over all calls made; and when every
response has tool calls the transcript has exactly maxIter entries and
the result is the executor.worker MaxIterations error tagged with the
node id. -/
theorem worker_loop_bounded_termination (client : Client) (resolver : ModelResolver)
    (registry : List Tool) (node : NodeConfig) (input : NodeInput)
    (nodeTools : List Tool)
    (hreg : registryGetMultiple registry node.tools = .ok nodeTools) :
    (executeWorkerT client resolver registry node input).2.length ≤
      (if node.maxIter ≤ 0 then (10 : Int) else node.maxIter).toNat ∧
    ((∃ out, (executeWorkerT client resolver registry node input).1 = .ok out) ↔
      ∃ x ∈ (executeWorkerT client resolver registry node input).2,
        x.toolCalls = []) ∧
    (∀ out, (executeWorkerT client resolver registry node input).1 = .ok out →
      ∃ pre last,
        (executeWorkerT client resolver registry node input).2 = pre ++ [last] ∧
        (∀ x ∈ pre, x.toolCalls ≠ []) ∧ last.toolCalls = [] ∧
        out.content = last.content ∧
        out.tokensIn = (((executeWorkerT client resolver registry node input).2).map
          (fun x => x.usage.promptTokens)).sum ∧
        out.tokensOut = (((executeWorkerT client resolver registry node input).2).map
          (fun x => x.usage.completionTokens)).sum) ∧
    (∀ e, (executeWorkerT client resolver registry node input).1 = .error e →
      e = newAgentError "executor.worker" node.id (.sentinel .maxIterations) ∧
      (executeWorkerT client resolver registry node input).2.length =
        (if node.maxIter ≤ 0 then (10 : Int) else node.maxIter).toNat ∧
      ∀ x ∈ (executeWorkerT client resolver registry node input).2,
        x.toolCalls ≠ []) := by
  have hE : executeWorkerT client resolver registry node input =
      workerLoopT
        (fun msgs => client.chatWithTools (resolver.resolveModelName node)
          node.prompt msgs (toSchemas nodeTools))
        nodeTools node.id [newUserMessage input.content] 0 0
        (if node.maxIter ≤ 0 then (10 : Int) else node.maxIter).toNat := by
    simp [executeWorkerT, hreg]
  rw [hE]
  obtain ⟨hlen, hok, herr⟩ :=
    workerLoopT_char
      (fun msgs => client.chatWithTools (resolver.resolveModelName node)
        node.prompt msgs (toSchemas nodeTools))
      nodeTools node.id
      (if node.maxIter ≤ 0 then (10 : Int) else node.maxIter).toNat
      [newUserMessage input.content] 0 0
  refine ⟨hlen, ?_, ?_, ?_⟩
  · constructor
    · rintro ⟨out, h⟩
      obtain ⟨pre, last, hsplit, hpre, hlast, hout⟩ := hok out h
      exact ⟨last, by simp [hsplit], (hasToolCalls_false_iff last).mp hlast⟩
    · rintro ⟨x, hx, hxe⟩
      cases hr : (workerLoopT _ nodeTools node.id [newUserMessage input.content]
          0 0 (if node.maxIter ≤ 0 then (10 : Int) else node.maxIter).toNat).1 with
      | ok out => exact ⟨out, rfl⟩
      | error e =>
        obtain ⟨_, _, hall⟩ := herr e hr
        exact absurd ((hasToolCalls_true_iff x).mp (hall x hx)) (by simp [hxe])
  · intro out h
    obtain ⟨pre, last, hsplit, hpre, hlast, hout⟩ := hok out h
    refine ⟨pre, last, hsplit, ?_, (hasToolCalls_false_iff last).mp hlast, ?_, ?_, ?_⟩
    · intro x hx
      exact (hasToolCalls_true_iff x).mp (hpre x hx)
    · rw [hout]
    · rw [hout]; simp
    · rw [hout]; simp
  · intro e h
    obtain ⟨he, hlen2, hall⟩ := herr e h
    refine ⟨he, hlen2, ?_⟩
    intro x hx
    exact (hasToolCalls_true_iff x).mp (hall x hx)

/-- C1 witness fixture: an echo tool. -/
def toolEcho : Tool :=
  { name := "echo", description := "echoes", parameters := "{}",
    execute := fun args => .ok args }

/-- C1 witness fixture: a worker node with three allowed iterations. -/
def nodeW : NodeConfig :=
  { id := "w1", type := nodeWorker, prompt := "p", model := emptyModel,
    tools := ["echo"], maxIter := 3, nextNodes := [], targetNodes := [] }

/-- C1 witness fixture: a client requesting one tool call, then done. -/
def clientW : Client :=
  { chat := fun _ _ _ => { content := "", finishReason := "", usage := ⟨0, 0, 0⟩ },
    chatWithTools := fun _ _ msgs _ =>
      if msgs.length ≤ 1 then
        { content := "use tool", toolCalls := [⟨"c1", "echo", "x"⟩],
          finishReason := "tool", usage := ⟨2, 3, 5⟩ }
      else
        { content := "done", toolCalls := [], finishReason := "stop",
          usage := ⟨4, 1, 5⟩ } }

/-- C1 witness: at the concrete worker the registry lookup succeeds, the
loop stays within its bound and terminates successfully. -/
theorem worker_loop_bounded_termination_witness :
    registryGetMultiple [toolEcho] nodeW.tools = .ok [toolEcho] ∧
    (executeWorkerT clientW resolverD [toolEcho] nodeW
        { nodeID := "w1", content := "go", sources := [] }).2.length ≤
      (if nodeW.maxIter ≤ 0 then (10 : Int) else nodeW.maxIter).toNat ∧
    (∃ out, (executeWorkerT clientW resolverD [toolEcho] nodeW
        { nodeID := "w1", content := "go", sources := [] }).1 = .ok out) :=
  ⟨rfl,
   (worker_loop_bounded_termination clientW resolverD [toolEcho] nodeW
      { nodeID := "w1", content := "go", sources := [] } [toolEcho] rfl).1,
   ((worker_loop_bounded_termination clientW resolverD [toolEcho] nodeW
      { nodeID := "w1", content := "go", sources := [] } [toolEcho] rfl).2.1).mpr
     (by decide)⟩

/-- find? returns the element at the first index whose predicate holds. -/
theorem find?_eq_get_of_first {α : Type} (l : List α) (pr : α → Bool) :
    ∀ (i : Nat) (hi : i < l.length),
    (∀ j, (hj : j < i) → pr (l.get ⟨j, Nat.lt_trans hj hi⟩) = false) →
    pr (l.get ⟨i, hi⟩) = true →
    l.find? pr = some (l.get ⟨i, hi⟩) := by
  induction l with
  | nil => intro i hi; simp at hi
  | cons a t ih =>
    intro i hi hfirst hit
    cases i with
    | zero =>
      simp at hit
      simp [List.find?, hit]
    | succ k =>
      have ha : pr a = false := hfirst 0 (Nat.succ_pos k)
      have hk : k < t.length := by simpa using hi
      have := ih k hk
        (fun j hj => hfirst (j + 1) (Nat.succ_lt_succ hj))
        (by simpa using hit)
      simp [List.find?, ha]
      simpa using this

/-- C5 counterexample fixture: a pipeline with no nodes but a declared
entry node. -/
def p5 : PipelineConfig :=
  { id := "p5", name := "p5", nodes := [], edges := [], entryNode := "x" }

/-- C5 counterexample: a pipeline with no nodes whose entry_node is
non-empty runs to success with no error — the claim says every run of a
node-less pipeline fails with ErrNodeNotFound. -/
theorem entry_selection_counterexample :
    p5.nodes = [] ∧
    engineRun p5 constClient resolverD [] [] "hi" =
      (some { success := true, finalNode := "", content := "", outputs := [],
              spans := [], error := none }, none) :=
  ⟨rfl, rfl⟩

/-- C5 amended: the entry node is the declared entry_node when non-empty;
otherwise the first declared node that no edge targets; otherwise the
first declared node; and a pipeline with no nodes AND no declared
entry_node fails with the engine.run ErrNodeNotFound error, executing
nothing. -/
theorem entry_selection_amended :
    (∀ p : PipelineConfig, p.entryNode ≠ "" → entrySelect p = p.entryNode) ∧
    (∀ (p : PipelineConfig) (i : Nat) (hi : i < p.nodes.length),
      p.entryNode = "" →
      (¬ ∃ e ∈ p.edges, e.toNode = (p.nodes.get ⟨i, hi⟩).id) →
      (∀ j, (hj : j < i) →
        ∃ e ∈ p.edges, e.toNode = (p.nodes.get ⟨j, Nat.lt_trans hj hi⟩).id) →
      entrySelect p = (p.nodes.get ⟨i, hi⟩).id) ∧
    (∀ (p : PipelineConfig) (n : NodeConfig) (t : List NodeConfig),
      p.entryNode = "" → p.nodes = n :: t →
      (∀ m ∈ p.nodes, ∃ e ∈ p.edges, e.toNode = m.id) →
      entrySelect p = n.id) ∧
    (∀ (p : PipelineConfig) (client : Client) (resolver : ModelResolver)
       (registry : List Tool) (sigma : List (String × List String))
       (input : String),
      p.entryNode = "" → p.nodes = [] →
      engineRun p client resolver registry sigma input =
        (none, some (newAgentError "engine.run" "" (.sentinel .nodeNotFound)))) := by
  refine ⟨?_, ?_, ?_, ?_⟩
  · intro p h
    simp [entrySelect, h]
  · intro p i hi he hnone hall
    have hfind := find?_eq_get_of_first p.nodes
        (fun n => !(p.edges.any (fun e => e.toNode = n.id))) i hi
      (fun j hj => by
        obtain ⟨e, hmem, hid⟩ := hall j hj
        simp [List.any_eq_true]
        exact ⟨e, hmem, hid⟩)
      (by
        simp [List.any_eq_true]
        intro e hmem
        by_contra hc
        exact hnone ⟨e, hmem, by simpa using hc⟩)
    simp [entrySelect, he, findEntryNode, hfind]
  · intro p n t he hcons hall
    have hfind : p.nodes.find?
        (fun m => !(p.edges.any (fun e => e.toNode = m.id))) = none := by
      rw [List.find?_eq_none]
      intro m hm
      obtain ⟨e, hmem, hid⟩ := hall m hm
      simp [List.any_eq_true]
      exact ⟨e, hmem, hid⟩
    rw [hcons] at hfind
    simp [entrySelect, he, findEntryNode, hfind, hcons]
  · intro p client resolver registry sigma input h1 h2
    simp [engineRun, entrySelect, findEntryNode, h1, h2]

/-- A Gate node fixture with the given id. -/
def gateNode (i : String) : NodeConfig :=
  { id := i, type := nodeGate, prompt := "", model := emptyModel, tools := [],
    maxIter := 0, nextNodes := [], targetNodes := [] }

/-- C5 witness fixture: two nodes a, b with one edge a to b and no
declared entry node. -/
def p5w : PipelineConfig :=
  { id := "p5w", name := "", nodes := [gateNode "a", gateNode "b"],
    edges := [{ fromNode := "a", toNode := "b" }], entryNode := "" }

/-- C5 witness fixture: the empty pipeline with empty entry node. -/
def p5e : PipelineConfig :=
  { id := "p5e", name := "", nodes := [], edges := [], entryNode := "" }

/-- C5 witness: entry selection picks node a (no in-edges) of p5w, and
the node-less entry-less pipeline fails with ErrNodeNotFound. -/
theorem entry_selection_amended_witness :
    p5w.entryNode = "" ∧
    entrySelect p5w = (p5w.nodes.get ⟨0, by decide⟩).id ∧
    engineRun p5e constClient resolverD [] [] "z" =
      (none, some (newAgentError "engine.run" "" (.sentinel .nodeNotFound))) :=
  ⟨rfl,
   entry_selection_amended.2.1 p5w 0 (by decide) rfl (by decide)
     (fun j hj => absurd hj (by omega)),
   entry_selection_amended.2.2.2 p5e constClient resolverD [] [] "z" rfl rfl⟩

/-- Appending a fresh element preserves Nodup. -/
theorem nodup_concat {α : Type} (l : List α) (a : α) (hl : l.Nodup) (ha : a ∉ l) :
    (l ++ [a]).Nodup := by
  rw [List.nodup_append]
  exact ⟨hl, List.nodup_singleton a, by simpa using ha⟩

/-- Go map assignment at a missing key appends the binding. -/
theorem insertOutput_notmem (outs : List (String × NodeOutput)) (id : String)
    (out : NodeOutput) (h : ∀ pr ∈ outs, pr.1 ≠ id) :
    insertOutput outs id out = outs ++ [(id, out)] := by
  have hany : outs.any (fun p => p.1 = id) = false := by
    rw [List.any_eq_false]
    intro pr hmem
    simpa using h pr hmem
  unfold insertOutput
  rw [hany]
  simp

/-- A successful node-map lookup returns a declared node with the looked
up id. -/
theorem nodeMapLookup_mem (nm : List NodeConfig) (id : String) :
    ∀ n, nodeMapLookup nm id = some n → n ∈ nm ∧ n.id = id := by
  have aux : ∀ (l : List NodeConfig) (acc : Option NodeConfig) (n : NodeConfig),
      l.foldl (fun acc m => if m.id = id then some m else acc) acc = some n →
      acc = some n ∨ (n ∈ l ∧ n.id = id) := by
    intro l
    induction l with
    | nil => intro acc n h; exact .inl h
    | cons m l2 ih =>
      intro acc n h
      rw [List.foldl_cons] at h
      rcases ih _ n h with h2 | h2
      · by_cases hm : m.id = id
        · rw [if_pos hm] at h2
          injection h2 with h3
          refine .inr ⟨?_, ?_⟩
          · rw [← h3]
            exact List.mem_cons_self m l2
          · rw [← h3]
            exact hm
        · rw [if_neg hm] at h2
          exact .inl h2
      · exact .inr ⟨List.mem_cons_of_mem m h2.1, h2.2⟩
  intro n h
  rcases aux nm none n h with h2 | h2
  · exact absurd h2 (by simp)
  · exact h2

/-- Every error produced by the executor dispatch has one of three
shapes: the unknown-type executor.execute error, the registry.get
ToolNotFound error, or the executor.worker MaxIterations error tagged
with the executed node's id. -/
theorem executorExecute_error_shape (client : Client) (resolver : ModelResolver)
    (registry : List Tool) (node : NodeConfig) (input : NodeInput) (e : GoErr)
    (h : executorExecute client resolver registry node input = .error e) :
    (∃ msg, e = .agentError "executor.execute" node.id (.fmtError msg)) ∨
    e = .agentError "registry.get" "" (.sentinel .toolNotFound) ∨
    e = .agentError "executor.worker" node.id (.sentinel .maxIterations) := by
  unfold executorExecute at h
  split at h
  · exact absurd h (by simp [executeLLM])
  · split at h
    · -- worker branch
      cases hw : executeWorker client resolver registry node input with
      | ok out => rw [hw] at h; exact absurd h (by simp)
      | error e2 =>
        rw [hw] at h
        have h3 : e2 = e := by simpa using h
        subst h3
        unfold executeWorker executeWorkerT at hw
        cases hreg : registryGetMultiple registry node.tools with
        | error eReg =>
          rw [hreg] at hw
          have h4 : eReg = e2 := by simpa using hw
          subst h4
          exact .inr (.inl
            (registryGetMultiple_error_shape registry node.tools eReg hreg))
        | ok nodeTools =>
          rw [hreg] at hw
          simp only [] at hw
          obtain ⟨he2, _, _⟩ :=
            (workerLoopT_char
              (fun msgs => client.chatWithTools (resolver.resolveModelName node)
                node.prompt msgs (toSchemas nodeTools))
              nodeTools node.id
              (if node.maxIter ≤ 0 then (10 : Int) else node.maxIter).toNat
              [newUserMessage input.content] 0 0).2.2 e2 hw
          exact .inr (.inr he2)
    · split at h
      · exact absurd h (by simp [executeRouter])
      · split at h
        · exact absurd h (by simp [executeGate])
        · split at h
          · exact absurd h (by simp [executeAggregator])
          · split at h
            · exact absurd h (by simp [executeOrchestrator])
            · split at h
              · exact absurd h (by simp [executeEvaluator])
              · split at h
                · exact absurd h (by simp [executeSynthesizer])
                · split at h
                  · exact absurd h (by simp [executeCoordinator])
                  · have h5 : newAgentError "executor.execute" node.id
                        (.fmtError ("unknown node type: " ++
                          nodeTypeString node.type)) = e := by
                      simpa using h
                    exact .inl ⟨"unknown node type: " ++ nodeTypeString node.type,
                      h5.symm⟩

/-- The engine-run invariant: output keys and span node ids are
duplicate-free and in bijection, everything recorded belongs to a
visited, declared node. -/
structure GoodState (nm : List NodeConfig) (st : RunState) : Prop where
  outKeysNodup : (st.outputs.map Prod.fst).Nodup
  spanIdsNodup : (st.spans.map Span.nodeID).Nodup
  outSpanIff : ∀ id, (∃ v, (id, v) ∈ st.outputs) ↔ (∃ s ∈ st.spans, s.nodeID = id)
  outVisited : ∀ pr ∈ st.outputs, pr.1 ∈ st.visited
  spanVisited : ∀ s ∈ st.spans, s.nodeID ∈ st.visited
  outDecl : ∀ pr ∈ st.outputs, ∃ n ∈ nm, n.id = pr.1
  spanDecl : ∀ s ∈ st.spans, ∃ n ∈ nm, n.id = s.nodeID

/-- The initial run state satisfies the invariant. -/
theorem goodState_init (nm : List NodeConfig) :
    GoodState nm { outputs := [], spans := [], history := [], visited := [], step := 0 } := by
  constructor <;> simp

/-- Growing the visited set (and retargeting history or step) preserves
the invariant. -/
theorem goodState_grow (nm : List NodeConfig) (st : RunState) (h : GoodState nm st)
    (l : List String) (hist2 : List NodeOutput) (k : Nat) :
    GoodState nm { outputs := st.outputs, spans := st.spans, history := hist2,
                   visited := st.visited ++ l, step := k } := by
  constructor
  · exact h.outKeysNodup
  · exact h.spanIdsNodup
  · exact h.outSpanIff
  · intro pr hpr
    exact List.mem_append_left l (h.outVisited pr hpr)
  · intro sp hsp
    exact List.mem_append_left l (h.spanVisited sp hsp)
  · exact h.outDecl
  · exact h.spanDecl

/-- Recording the output, span and history entry of a freshly executed
declared node preserves the invariant. -/
theorem goodState_execute (nm : List NodeConfig) (st : RunState)
    (h : GoodState nm st) (id : String) (hid : id ∉ st.visited)
    (node : NodeConfig) (hlook : nodeMapLookup nm id = some node)
    (out : NodeOutput) (span : Span) (hspan : span.nodeID = id)
    (hist2 : List NodeOutput) (k : Nat) :
    GoodState nm
      { outputs := insertOutput st.outputs id out,
        spans := st.spans ++ [span],
        history := hist2, visited := st.visited ++ [id], step := k } := by
  have hkeys : ∀ pr ∈ st.outputs, pr.1 ≠ id := fun pr hpr heq =>
    hid (heq ▸ h.outVisited pr hpr)
  have hspanne : ∀ s ∈ st.spans, s.nodeID ≠ id := fun sp hsp heq =>
    hid (heq ▸ h.spanVisited sp hsp)
  have hins : insertOutput st.outputs id out = st.outputs ++ [(id, out)] :=
    insertOutput_notmem _ _ _ hkeys
  have hdecl := nodeMapLookup_mem nm id node hlook
  constructor
  · rw [hins, List.map_append]
    apply nodup_concat _ _ h.outKeysNodup
    intro hc
    simp only [List.mem_map] at hc
    obtain ⟨pr, hpr, heq⟩ := hc
    exact hkeys pr hpr heq
  · rw [List.map_append]
    apply nodup_concat _ _ h.spanIdsNodup
    intro hc
    simp only [List.mem_map] at hc
    obtain ⟨sp, hsp, heq⟩ := hc
    exact hspanne sp hsp (heq.trans hspan)
  · intro id2
    rw [hins]
    constructor
    · rintro ⟨v, hv⟩
      rcases List.mem_append.mp hv with hold | hnew
      · obtain ⟨sp, hsp, hspid⟩ := (h.outSpanIff id2).mp ⟨v, hold⟩
        exact ⟨sp, List.mem_append_left _ hsp, hspid⟩
      · simp only [List.mem_singleton] at hnew
        have hids : id2 = id := by
          have := congrArg Prod.fst hnew
          simpa using this
        exact ⟨span, List.mem_append_right _ (List.mem_singleton_self span),
          by rw [hspan, hids]⟩
    · rintro ⟨sp, hsp, hspid⟩
      rcases List.mem_append.mp hsp with hold | hnew
      · obtain ⟨v, hv⟩ := (h.outSpanIff id2).mpr ⟨sp, hold, hspid⟩
        exact ⟨v, List.mem_append_left _ hv⟩
      · simp only [List.mem_singleton] at hnew
        have hids : id2 = id := by rw [← hspid, hnew, hspan]
        exact ⟨out, List.mem_append_right _ (by simp [hids])⟩
  · intro pr hpr
    rw [hins] at hpr
    rcases List.mem_append.mp hpr with hold | hnew
    · exact List.mem_append_left _ (h.outVisited pr hold)
    · simp only [List.mem_singleton] at hnew
      rw [hnew]
      exact List.mem_append_right _ (by simp)
  · intro sp hsp
    rcases List.mem_append.mp hsp with hold | hnew
    · exact List.mem_append_left _ (h.spanVisited sp hold)
    · simp only [List.mem_singleton] at hnew
      rw [hnew, hspan]
      exact List.mem_append_right _ (by simp)
  · intro pr hpr
    rw [hins] at hpr
    rcases List.mem_append.mp hpr with hold | hnew
    · exact h.outDecl pr hold
    · simp only [List.mem_singleton] at hnew
      rw [hnew]
      exact ⟨node, hdecl.1, hdecl.2⟩
  · intro sp hsp
    rcases List.mem_append.mp hsp with hold | hnew
    · exact h.spanDecl sp hold
    · simp only [List.mem_singleton] at hnew
      rw [hnew, hspan]
      exact ⟨node, hdecl.1, hdecl.2⟩

/-- Processing one frontier preserves the invariant; a failure exposes
the pre-failure outputs and spans, fields zeroed as in the Go early
return, and a MaxIterations failure names a node that has no span. -/
theorem runNodes_good (eng : EngineM) :
    ∀ (frontier : List String) (st : RunState) (acc : List String),
      GoodState eng.nodeMap st →
      (∀ st1 next, runNodes eng frontier st acc = .ok (st1, next) →
          GoodState eng.nodeMap st1) ∧
      (∀ out e, runNodes eng frontier st acc = .error (out, e) →
          out.success = false ∧ out.content = "" ∧ out.finalNode = "" ∧
          out.error = some e ∧
          (∃ stE : RunState, GoodState eng.nodeMap stE ∧
            out.outputs = stE.outputs ∧ out.spans = stE.spans) ∧
          (∀ op nid, e = .agentError op nid (.sentinel .maxIterations) →
            op = "executor.worker" ∧ ∀ s ∈ out.spans, s.nodeID ≠ nid)) := by
  intro frontier
  induction frontier with
  | nil =>
    intro st acc hst
    constructor
    · intro st1 next h
      rw [runNodes] at h
      injection h with h2
      injection h2 with ha hb
      rw [← ha]
      exact hst
    · intro out e h
      rw [runNodes] at h
      exact absurd h (by simp)
  | cons id rest ih =>
    intro st acc hst
    by_cases hv : id ∈ st.visited
    · constructor
      · intro st1 next h
        rw [runNodes, if_pos hv] at h
        exact (ih st acc hst).1 st1 next h
      · intro out e h
        rw [runNodes, if_pos hv] at h
        exact (ih st acc hst).2 out e h
    · cases hlook : nodeMapLookup eng.nodeMap id with
      | none =>
        have hst1 : GoodState eng.nodeMap
            { outputs := st.outputs, spans := st.spans, history := st.history,
              visited := st.visited ++ [id], step := st.step } :=
          goodState_grow eng.nodeMap st hst [id] st.history st.step
        constructor
        · intro st1 next h
          rw [runNodes, if_neg hv] at h
          simp only [hlook] at h
          exact (ih _ acc hst1).1 st1 next h
        · intro out e h
          rw [runNodes, if_neg hv] at h
          simp only [hlook] at h
          exact (ih _ acc hst1).2 out e h
      | some node =>
        have hnodeid : node.id = id := (nodeMapLookup_mem eng.nodeMap id node hlook).2
        cases hex : executorExecute eng.client eng.resolver eng.registry node
            (buildNodeInputB eng.sigma id
              { input := { nodeID := "", content := eng.inputStr, sources := [] },
                history := st.history }) with
        | error eexec =>
          constructor
          · intro st1 next h
            rw [runNodes, if_neg hv] at h
            simp only [hlook, hex] at h
            exact absurd h (by simp)
          · intro out e h
            rw [runNodes, if_neg hv] at h
            simp only [hlook, hex] at h
            injection h with h2
            injection h2 with hout he
            subst he
            refine ⟨by rw [← hout], by rw [← hout], by rw [← hout],
              by rw [← hout], ⟨st, hst, by rw [← hout], by rw [← hout]⟩, ?_⟩
            intro op nid heq
            subst heq
            rcases executorExecute_error_shape eng.client eng.resolver eng.registry
                node _ _ hex with ⟨msg, hsh⟩ | hsh | hsh
            · exact absurd (congrArg (fun x => match x with
                | GoErr.agentError _ _ inner => inner
                | _ => GoErr.sentinel .nodeNotFound) hsh) (by simp)
            · exact absurd (congrArg (fun x => match x with
                | GoErr.agentError _ _ inner => inner
                | _ => GoErr.sentinel .nodeNotFound) hsh) (by simp)
            · injection hsh with hop hnid hinner
              refine ⟨hop, ?_⟩
              intro sp hsp heq2
              rw [← hout] at hsp
              have hvis := hst.spanVisited sp hsp
              rw [heq2, hnid, hnodeid] at hvis
              exact hv hvis
        | ok output =>
          constructor
          · intro st1 next h
            rw [runNodes, if_neg hv] at h
            simp only [hlook, hex] at h
            refine (ih _ _ ?_).1 st1 next h
            exact goodState_execute eng.nodeMap st hst id hv node hlook output _ rfl
              (st.history ++ [output]) (st.step + 1 + 1)
          · intro out e h
            rw [runNodes, if_neg hv] at h
            simp only [hlook, hex] at h
            refine (ih _ _ ?_).2 out e h
            exact goodState_execute eng.nodeMap st hst id hv node hlook output _ rfl
              (st.history ++ [output]) (st.step + 1 + 1)

/-- The frontier loop preserves the invariant; a run result exposes a
good final state, success carries no error, and failure zeroes the
result fields and, for MaxIterations, names a span-less node. -/
theorem runLoop_good (eng : EngineM) :
    ∀ (fuel : Nat) (frontier : List String) (st : RunState),
      GoodState eng.nodeMap st →
      ∀ out e0, runLoop eng fuel frontier st = (out, e0) →
        (∃ stE : RunState, GoodState eng.nodeMap stE ∧
          out.outputs = stE.outputs ∧ out.spans = stE.spans) ∧
        (e0 = none → out.success = true ∧ out.error = none) ∧
        (∀ e, e0 = some e →
          out.success = false ∧ out.content = "" ∧ out.finalNode = "" ∧
          out.error = some e ∧
          (∀ op nid, e = .agentError op nid (.sentinel .maxIterations) →
            op = "executor.worker" ∧ ∀ s ∈ out.spans, s.nodeID ≠ nid)) := by
  intro fuel
  induction fuel with
  | zero =>
    intro frontier st hst out e0 h
    rw [runLoop] at h
    unfold finishRun at h
    injection h with h1 h2
    subst h2
    refine ⟨⟨st, hst, by rw [← h1], by rw [← h1]⟩, ?_, ?_⟩
    · intro _
      exact ⟨by rw [← h1], by rw [← h1]⟩
    · intro e he
      exact absurd he (by simp)
  | succ n ihf =>
    intro frontier st hst out e0 h
    rw [runLoop] at h
    by_cases hfe : frontier.length = 0
    · rw [if_pos hfe] at h
      unfold finishRun at h
      injection h with h1 h2
      subst h2
      refine ⟨⟨st, hst, by rw [← h1], by rw [← h1]⟩, ?_, ?_⟩
      · intro _
        exact ⟨by rw [← h1], by rw [← h1]⟩
      · intro e he
        exact absurd he (by simp)
    · rw [if_neg hfe] at h
      cases hrn : runNodes eng frontier st [] with
      | error pe =>
        obtain ⟨outE, eE⟩ := pe
        rw [hrn] at h
        simp only [] at h
        injection h with h1 h2
        subst h1
        subst h2
        obtain ⟨hs, hc, hf, herr, hstE, hmax⟩ :=
          ((runNodes_good eng) frontier st [] hst).2 outE eE hrn
        refine ⟨hstE, ?_, ?_⟩
        · intro hc2
          exact absurd hc2 (by simp)
        · intro e he
          injection he with he2
          subst he2
          exact ⟨hs, hc, hf, herr, hmax⟩
      | ok pr =>
        obtain ⟨st1, next⟩ := pr
        rw [hrn] at h
        simp only [] at h
        exact ihf next st1 (((runNodes_good eng) frontier st [] hst).1 st1 next hrn)
          out e0 h

/-- Every engine run outcome carrying an output exposes a good final
state; success carries no error; failure zeroes the result fields and a
MaxIterations error names a node without a span. -/
theorem engineRun_good (p : PipelineConfig) (client : Client)
    (resolver : ModelResolver) (registry : List Tool)
    (sigma : List (String × List String)) (input : String)
    (out : EngineOutput) (e0 : Option GoErr)
    (h : engineRun p client resolver registry sigma input = (some out, e0)) :
    (∃ stE : RunState, GoodState p.nodes stE ∧
      out.outputs = stE.outputs ∧ out.spans = stE.spans) ∧
    (e0 = none → out.success = true ∧ out.error = none) ∧
    (∀ e, e0 = some e →
      out.success = false ∧ out.content = "" ∧ out.finalNode = "" ∧
      out.error = some e ∧
      (∀ op nid, e = .agentError op nid (.sentinel .maxIterations) →
        op = "executor.worker" ∧ ∀ s ∈ out.spans, s.nodeID ≠ nid)) := by
  unfold engineRun at h
  by_cases he : entrySelect p = ""
  · rw [if_pos he] at h
    injection h with h1 h2
    exact absurd h1 (by simp)
  · rw [if_neg he] at h
    injection h with h1 h2
    injection h1 with h1b
    have hrun : runLoop
        { client := client, resolver := resolver, registry := registry,
          nodeMap := p.nodes, edges := edgesMapOf p.edges, sigma := sigma,
          inputStr := input }
        (p.nodes.length + 2) [entrySelect p]
        { outputs := [], spans := [], history := [], visited := [], step := 0 } =
        (out, e0) := by
      rw [← h1b, ← h2]
    exact runLoop_good _ _ _ _ (goodState_init _) out e0 hrun

/-- C6: for every run that returns an outcome (success or failure), a
node id is a key of the outputs map exactly when a span with that
node_id exists, and no node id occurs in more than one span (nor more
than once among the output keys). -/
theorem outputs_spans_correspondence (p : PipelineConfig) (client : Client)
    (resolver : ModelResolver) (registry : List Tool)
    (sigma : List (String × List String)) (input : String)
    (out : EngineOutput) (e0 : Option GoErr)
    (h : engineRun p client resolver registry sigma input = (some out, e0)) :
    (out.outputs.map Prod.fst).Nodup ∧
    (out.spans.map Span.nodeID).Nodup ∧
    (∀ id, (∃ v, (id, v) ∈ out.outputs) ↔ (∃ s ∈ out.spans, s.nodeID = id)) := by
  obtain ⟨⟨stE, hgood, ho, hs⟩, _, _⟩ :=
    engineRun_good p client resolver registry sigma input out e0 h
  rw [ho, hs]
  exact ⟨hgood.outKeysNodup, hgood.spanIdsNodup, hgood.outSpanIff⟩

/-- C6 witness fixture: a single-gate pipeline. -/
def pg : PipelineConfig :=
  { id := "pg", name := "", nodes := [gateNode "g"], edges := [], entryNode := "" }

/-- C6 witness fixture: the outcome of running the single-gate pipeline. -/
def outG : EngineOutput :=
  { success := true, finalNode := "g", content := "z",
    outputs := [("g", ⟨"g", "z", [], 0, 0⟩)],
    spans := [⟨"span_2", "g", 3, "z", "z", 0, 0⟩],
    error := none }

/-- C6 witness: the correspondence at the concrete single-gate run. -/
theorem outputs_spans_correspondence_witness :
    engineRun pg constClient resolverD [] [] "z" = (some outG, none) ∧
    (outG.outputs.map Prod.fst).Nodup :=
  ⟨by decide, (outputs_spans_correspondence pg constClient resolverD [] [] "z" outG
    none (by decide)).1⟩

/-- C7 counterexample fixture: a client that always requests a tool
call. -/
def clientLoop : Client :=
  { chat := fun _ _ _ => { content := "", finishReason := "", usage := ⟨0, 0, 0⟩ },
    chatWithTools := fun _ _ _ _ =>
      { content := "c", toolCalls := [⟨"tc1", "echo", "x"⟩],
        finishReason := "tool", usage := ⟨1, 1, 2⟩ } }

/-- C7 counterexample fixture: a worker node with max_iter 2. -/
def workerNodeW : NodeConfig :=
  { id := "w", type := nodeWorker, prompt := "p", model := emptyModel,
    tools := ["echo"], maxIter := 2, nextNodes := [], targetNodes := [] }

/-- C7 counterexample fixture: a pipeline of that single worker node. -/
def pW : PipelineConfig :=
  { id := "pw", name := "pw", nodes := [workerNodeW], edges := [], entryNode := "" }

/-- C7 counterexample fixture: the failure outcome of the worker run. -/
def outW : EngineOutput :=
  { success := false, finalNode := "", content := "", outputs := [], spans := [],
    error := some (newAgentError "executor.worker" "w" (.sentinel .maxIterations)) }

/-- C7 counterexample: a worker that exhausts max_iter = 2 fails with the
node-tagged MaxIterations error, but its span list is empty — no span for
the worker node exists at all, against the claim of a span with
tool_call_count at least 2. -/
theorem worker_maxiter_counterexample :
    engineRun pW clientLoop resolverD [toolEcho] [] "go" =
      (some outW, some (newAgentError "executor.worker" "w"
        (.sentinel .maxIterations))) ∧
    outW.spans = [] ∧
    ¬ ∃ s ∈ outW.spans, s.nodeID = "w" :=
  ⟨by decide, rfl, by simp [outW]⟩

/-- C7 amended: when a run fails with a MaxIterations error tagged with a
node id, the outcome is a failure with no final content and no final
node, carrying that error, with the operation tag executor.worker — and
the span list contains NO span for that node (spans are recorded only for
successfully completed nodes). -/
theorem worker_maxiter_failure_amended (p : PipelineConfig) (client : Client)
    (resolver : ModelResolver) (registry : List Tool)
    (sigma : List (String × List String)) (input : String)
    (out : EngineOutput) (op nid : String)
    (h : engineRun p client resolver registry sigma input =
      (some out, some (.agentError op nid (.sentinel .maxIterations)))) :
    out.success = false ∧ out.content = "" ∧ out.finalNode = "" ∧
    out.error = some (.agentError op nid (.sentinel .maxIterations)) ∧
    op = "executor.worker" ∧ ∀ s ∈ out.spans, s.nodeID ≠ nid := by
  obtain ⟨_, _, hfail⟩ :=
    engineRun_good p client resolver registry sigma input out _ h
  obtain ⟨hs, hc, hf, herr, hmax⟩ := hfail _ rfl
  obtain ⟨hop, hspan⟩ := hmax op nid rfl
  exact ⟨hs, hc, hf, herr, hop, hspan⟩

/-- C7 witness: the amended statement holds at the concrete exhausted
worker run. -/
theorem worker_maxiter_failure_amended_witness :
    (engineRun pW clientLoop resolverD [toolEcho] [] "go" =
      (some outW, some (.agentError "executor.worker" "w"
        (.sentinel .maxIterations)))) ∧
    outW.success = false ∧ (∀ s ∈ outW.spans, s.nodeID ≠ "w") :=
  ⟨by decide,
   (worker_maxiter_failure_amended pW clientLoop resolverD [toolEcho] [] "go"
      outW "executor.worker" "w" (by decide)).1,
   (worker_maxiter_failure_amended pW clientLoop resolverD [toolEcho] [] "go"
      outW "executor.worker" "w" (by decide)).2.2.2.2.2⟩

/-- C10: any frontier entry that does not name a declared node is
silently skipped: processing it only marks it visited (no error, no
output, no span); every recorded output key and span node id names a
declared node; and a run whose declared entry_node is not a declared
node returns success with empty content, empty final node, no outputs
and no spans. -/
theorem frontier_skips_unknown_ids :
    (∀ (eng : EngineM) (id : String) (rest : List String) (st : RunState)
       (acc : List String),
      id ∉ st.visited → nodeMapLookup eng.nodeMap id = none →
      runNodes eng (id :: rest) st acc =
        runNodes eng rest { st with visited := st.visited ++ [id] } acc) ∧
    (∀ (eng : EngineM) (id : String) (rest : List String) (st : RunState)
       (acc : List String),
      id ∈ st.visited →
      runNodes eng (id :: rest) st acc = runNodes eng rest st acc) ∧
    (∀ (p : PipelineConfig) (client : Client) (resolver : ModelResolver)
       (registry : List Tool) (sigma : List (String × List String))
       (input : String) (out : EngineOutput) (e0 : Option GoErr),
      engineRun p client resolver registry sigma input = (some out, e0) →
      (∀ pr ∈ out.outputs, ∃ n ∈ p.nodes, n.id = pr.1) ∧
      (∀ s ∈ out.spans, ∃ n ∈ p.nodes, n.id = s.nodeID)) ∧
    (∀ (p : PipelineConfig) (client : Client) (resolver : ModelResolver)
       (registry : List Tool) (sigma : List (String × List String))
       (input : String),
      p.entryNode ≠ "" → nodeMapLookup p.nodes p.entryNode = none →
      engineRun p client resolver registry sigma input =
        (some { success := true, finalNode := "", content := "", outputs := [],
                spans := [], error := none }, none)) := by
  refine ⟨?_, ?_, ?_, ?_⟩
  · intro eng id rest st acc h1 h2
    rw [runNodes, if_neg h1]
    simp only [h2]
  · intro eng id rest st acc h1
    rw [runNodes, if_pos h1]
  · intro p client resolver registry sigma input out e0 h
    obtain ⟨⟨stE, hgood, ho, hs⟩, _, _⟩ :=
      engineRun_good p client resolver registry sigma input out e0 h
    rw [ho, hs]
    exact ⟨hgood.outDecl, hgood.spanDecl⟩
  · intro p client resolver registry sigma input h1 h2
    unfold engineRun
    have hes : entrySelect p = p.entryNode := by simp [entrySelect, h1]
    rw [hes, if_neg h1]
    have hrn : runNodes
        { client := client, resolver := resolver, registry := registry,
          nodeMap := p.nodes, edges := edgesMapOf p.edges, sigma := sigma,
          inputStr := input }
        [p.entryNode]
        { outputs := [], spans := [], history := [], visited := [], step := 0 }
        [] =
        .ok ({ outputs := [], spans := [], history := [],
               visited := [] ++ [p.entryNode], step := 0 }, []) := by
      rw [runNodes, if_neg (by simp)]
      simp only [h2]
      rw [runNodes]
    simp only []
    rw [runLoop, if_neg (by simp), hrn]
    simp only []
    rw [runLoop, if_pos (by simp)]
    rfl

/-- C10 witness fixture: a pipeline whose entry node is undeclared. -/
def pMissing : PipelineConfig :=
  { id := "pm", name := "", nodes := [gateNode "g"], edges := [],
    entryNode := "ghost" }

/-- C10 witness: the undeclared-entry run returns empty success, and the
skip equation holds at a concrete state. -/
theorem frontier_skips_unknown_ids_witness :
    pMissing.entryNode ≠ "" ∧
    nodeMapLookup pMissing.nodes "ghost" = none ∧
    engineRun pMissing constClient resolverD [] [] "q" =
      (some { success := true, finalNode := "", content := "", outputs := [],
              spans := [], error := none }, none) :=
  ⟨by decide, by decide,
   frontier_skips_unknown_ids.2.2.2 pMissing constClient resolverD [] [] "q"
     (by decide) (by decide)⟩

/-- C2 fixture: a coordinator fanning out to two LLM nodes feeding one
gate. -/
def coordNodeS : NodeConfig :=
  { id := "s", type := nodeCoordinator, prompt := "", model := emptyModel,
    tools := [], maxIter := 0, nextNodes := [], targetNodes := ["a", "b"] }

/-- C2 fixture: LLM node a. -/
def llmNodeA : NodeConfig :=
  { id := "a", type := nodeLLM, prompt := "alpha", model := emptyModel,
    tools := [], maxIter := 0, nextNodes := [], targetNodes := [] }

/-- C2 fixture: LLM node b. -/
def llmNodeB : NodeConfig :=
  { id := "b", type := nodeLLM, prompt := "beta", model := emptyModel,
    tools := [], maxIter := 0, nextNodes := [], targetNodes := [] }

/-- C2 fixture: the fan-in pipeline s to (a, b) to c. -/
def p2 : PipelineConfig :=
  { id := "p2", name := "p2",
    nodes := [coordNodeS, llmNodeA, llmNodeB, gateNode "c"],
    edges := [{ fromNode := "a", toNode := "c" },
              { fromNode := "b", toNode := "c" }],
    entryNode := "s" }

/-- C2 fixture: a deterministic model echoing its system prompt. -/
def client2 : Client :=
  { chat := fun _ system _ => ⟨system, "", ⟨0, 0, 0⟩⟩,
    chatWithTools := fun _ _ _ _ => ⟨"", [], "", ⟨0, 0, 0⟩⟩ }

/-- C2 fixture: the edges-map iteration order visiting key a first. -/
def sigmaAB : List (String × List String) := [("a", ["c"]), ("b", ["c"])]

/-- C2 fixture: the edges-map iteration order visiting key b first. -/
def sigmaBA : List (String × List String) := [("b", ["c"]), ("a", ["c"])]

set_option maxRecDepth 8000 in
/-- C2: two runs of the same pipeline on the same input with the same
deterministic model give different final outputs when Go's randomized
map iteration enumerates the fan-in edges map in different orders — both
orders are permutations of the same edges map, i.e. both are behaviors
the Go code can exhibit, yet node c's merged input and the final content
differ. -/
theorem fanin_map_order_nondeterminism :
    sigmaAB.Perm (edgesMapOf p2.edges) ∧
    sigmaBA.Perm (edgesMapOf p2.edges) ∧
    ((engineRun p2 client2 resolverD [] sigmaAB "go").1.map
      EngineOutput.content) = some "alpha\n\nbeta" ∧
    ((engineRun p2 client2 resolverD [] sigmaBA "go").1.map
      EngineOutput.content) = some "beta\n\nalpha" ∧
    engineRun p2 client2 resolverD [] sigmaAB "go" ≠
      engineRun p2 client2 resolverD [] sigmaBA "go" :=
  ⟨by decide, by decide, by decide, by decide, by decide⟩

/-- The multiset of directed edges stored in an edges map. -/
def flatPairs (m : List (String × List String)) : List (String × String) :=
  m.flatMap (fun p => p.2.map (fun t => (p.1, t)))

/-- flatPairs distributes over cons. -/
theorem flatPairs_cons (p : String × List String) (m : List (String × List String)) :
    flatPairs (p :: m) = p.2.map (fun x => (p.1, x)) ++ flatPairs m := by
  simp [flatPairs]

/-- flatPairs distributes over append. -/
theorem flatPairs_append (m1 m2 : List (String × List String)) :
    flatPairs (m1 ++ m2) = flatPairs m1 ++ flatPairs m2 := by
  simp [flatPairs]

/-- Updating absent keys is the identity. -/
theorem map_upd_eq_self (f t : String) (m : List (String × List String))
    (h : ∀ p ∈ m, p.1 ≠ f) :
    m.map (fun p => if p.1 = f then (p.1, p.2 ++ [t]) else p) = m := by
  have h2 : ∀ p ∈ m, (fun p => if p.1 = f then (p.1, p.2 ++ [t]) else p) p = p :=
    fun p hp => if_neg (h p hp)
  rw [List.map_congr_left h2]
  exact List.map_id m

/-- Appending a target to the unique entry with key f adds exactly the
pair (f, t) to the edge multiset, up to permutation. -/
theorem flatPairs_mapUpd (f t : String) :
    ∀ (m : List (String × List String)), (m.map Prod.fst).Nodup →
    (∃ q ∈ m, q.1 = f) →
    (flatPairs (m.map (fun p => if p.1 = f then (p.1, p.2 ++ [t]) else p))).Perm
      (flatPairs m ++ [(f, t)]) := by
  intro m
  induction m with
  | nil =>
    intro _ h
    simp at h
  | cons p m2 ih =>
    intro hnodup hany
    have hnodup2 : (m2.map Prod.fst).Nodup := by
      simp only [List.map_cons, List.nodup_cons] at hnodup
      exact hnodup.2
    by_cases hp : p.1 = f
    · have hm2 : ∀ q ∈ m2, q.1 ≠ f := by
        intro q hq heq
        simp only [List.map_cons, List.nodup_cons] at hnodup
        exact hnodup.1 (List.mem_map.mpr ⟨q, hq, heq.trans hp.symm⟩)
      rw [List.map_cons, if_pos hp, map_upd_eq_self f t m2 hm2,
        flatPairs_cons, flatPairs_cons, List.map_append, ← hp]
      rw [List.append_assoc, List.append_assoc]
      refine List.Perm.append_left _ ?_
      simpa using (List.perm_append_singleton (p.1, t) (flatPairs m2)).symm
    · have hany2 : ∃ q ∈ m2, q.1 = f := by
        obtain ⟨q, hq, hqf⟩ := hany
        rcases List.mem_cons.mp hq with hq1 | hq2
        · exact absurd (hq1 ▸ hqf) hp
        · exact ⟨q, hq2, hqf⟩
      rw [List.map_cons, if_neg hp, flatPairs_cons, flatPairs_cons,
        List.append_assoc]
      exact List.Perm.append_left _ (ih hnodup2 hany2)

/-- upsertEdge preserves duplicate-freedom of the keys. -/
theorem upsert_keys_nodup (f t : String) (m : List (String × List String))
    (h : (m.map Prod.fst).Nodup) :
    ((upsertEdge m f t).map Prod.fst).Nodup := by
  unfold upsertEdge
  split
  · have h3 : (m.map (fun p => if p.1 = f then (p.1, p.2 ++ [t]) else p)).map
        Prod.fst = m.map Prod.fst := by
      rw [List.map_map]
      apply List.map_congr_left
      intro p _
      by_cases hp : p.1 = f <;> simp [hp, Function.comp]
    rw [h3]
    exact h
  · rename_i hcond
    rw [List.map_append]
    refine nodup_concat _ _ h ?_
    intro hc
    obtain ⟨q, hq, hqf⟩ := List.mem_map.mp hc
    refine hcond ?_
    rw [List.any_eq_true]
    exact ⟨q, hq, by simp [hqf]⟩

/-- upsertEdge adds exactly one edge pair to the multiset. -/
theorem flatPairs_upsert (f t : String) (m : List (String × List String))
    (h : (m.map Prod.fst).Nodup) :
    (flatPairs (upsertEdge m f t)).Perm (flatPairs m ++ [(f, t)]) := by
  unfold upsertEdge
  split
  · rename_i hcond
    rw [List.any_eq_true] at hcond
    obtain ⟨q, hq, hqf⟩ := hcond
    exact flatPairs_mapUpd f t m h ⟨q, hq, by simpa using hqf⟩
  · rw [flatPairs_append]
    have h2 : flatPairs [(f, [t])] = [(f, t)] := by simp [flatPairs]
    rw [h2]

/-- Folding edges into the map keeps its edge multiset equal (up to
permutation) to the declared edges. -/
theorem flatPairs_foldl (es : List EdgeConfig) :
    ∀ (m : List (String × List String)), (m.map Prod.fst).Nodup →
    (flatPairs (es.foldl (fun m e => upsertEdge m e.fromNode e.toNode) m)).Perm
      (flatPairs m ++ es.map (fun e => (e.fromNode, e.toNode))) := by
  induction es with
  | nil =>
    intro m _
    simp
  | cons e es2 ih =>
    intro m h
    rw [List.foldl_cons]
    refine (ih _ (upsert_keys_nodup _ _ m h)).trans ?_
    refine ((flatPairs_upsert e.fromNode e.toNode m h).append_right _).trans ?_
    rw [List.append_assoc, List.map_cons]
    exact List.Perm.refl _

/-- The edges map built by NewEngine holds exactly the declared edges as
a multiset. -/
theorem flatPairs_edgesMapOf (es : List EdgeConfig) :
    (flatPairs (edgesMapOf es)).Perm (es.map (fun e => (e.fromNode, e.toNode))) := by
  have h := flatPairs_foldl es [] (by simp)
  simpa [edgesMapOf, flatPairs] using h

/-- The per-entry collection in findSourceNodes is a filterMap over that
entry's edge pairs. -/
theorem inner_filter_map (f nid : String) :
    ∀ ts : List String,
    (ts.filter (fun t => t = nid)).map (fun _ => f) =
      (ts.map (fun t => (f, t))).filterMap
        (fun pr => if pr.2 = nid then some pr.1 else none) := by
  intro ts
  induction ts with
  | nil => rfl
  | cons t ts2 ih =>
    by_cases ht : t = nid <;> simp [ht, ih, List.filter_cons]

/-- findSourceNodes is the filterMap of the edge multiset. -/
theorem findSourceNodes_eq (sigma : List (String × List String)) (nid : String) :
    findSourceNodes sigma nid =
      (flatPairs sigma).filterMap
        (fun pr => if pr.2 = nid then some pr.1 else none) := by
  induction sigma with
  | nil => rfl
  | cons p sigma2 ih =>
    rw [findSourceNodes, flatPairs_cons, List.filterMap_append, ih,
      inner_filter_map p.1 nid p.2]

/-- filterMap of the declared edge pairs is filter-then-map of the
declared edges. -/
theorem pairs_filterMap (es : List EdgeConfig) (nid : String) :
    (es.map (fun e => (e.fromNode, e.toNode))).filterMap
      (fun pr => if pr.2 = nid then some pr.1 else none) =
    (es.filter (fun e => e.toNode = nid)).map (fun e => e.fromNode) := by
  induction es with
  | nil => rfl
  | cons e es2 ih =>
    by_cases ht : e.toNode = nid <;> simp [ht, ih, List.filter_cons]

/-- For any map iteration order sigma of the engine's edges map, the
collected sources are a permutation of the declared predecessors (one
per edge into the node). -/
theorem findSourceNodes_perm (es : List EdgeConfig)
    (sigma : List (String × List String)) (nid : String)
    (h : sigma.Perm (edgesMapOf es)) :
    (findSourceNodes sigma nid).Perm
      ((es.filter (fun e => e.toNode = nid)).map (fun e => e.fromNode)) := by
  rw [findSourceNodes_eq, ← pairs_filterMap]
  refine ((h.flatMap_right _).filterMap _).trans ?_
  exact (flatPairs_edgesMapOf es).filterMap _

/-- The trailing part of a separated join. -/
def joinSepTail (sep : String) : List String → String
  | [] => ""
  | s :: rest => sep ++ s ++ joinSepTail sep rest

/-- joinSep of a cons is the head followed by the separated tail. -/
theorem joinSep_cons (sep s : String) (rest : List String) :
    joinSep sep (s :: rest) = s ++ joinSepTail sep rest := by
  induction rest generalizing s with
  | nil => simp [joinSep, joinSepTail, String.append_empty]
  | cons r rest2 ih =>
    rw [joinSep, joinSepTail, ih r, String.append_assoc, String.append_assoc]
    simp

/-- A separated join starting with a non-empty part is non-empty. -/
theorem joinSep_cons_ne (sep s : String) (rest : List String) (hs : s ≠ "") :
    joinSep sep (s :: rest) ≠ "" := by
  rw [joinSep_cons]
  exact string_append_ne_empty s _ hs

/-- Folding the merge step from a non-empty accumulator separates every
part from it. -/
theorem foldl_mergeStep_of_ne :
    ∀ (parts : List String) (c : String), c ≠ "" →
    parts.foldl mergeStep c = c ++ joinSepTail "\n\n" parts := by
  intro parts
  induction parts with
  | nil =>
    intro c _
    simp [joinSepTail, String.append_empty]
  | cons s rest ih =>
    intro c hc
    rw [List.foldl_cons]
    have hm : mergeStep c s = c ++ "\n\n" ++ s := by
      rw [mergeStep, if_pos hc]
    have hc2 : c ++ "\n\n" ++ s ≠ "" :=
      string_append_ne_empty _ s (string_append_ne_empty c _ hc)
    rw [hm, ih _ hc2, joinSepTail]
    simp [String.append_assoc]

/-- Folding the merge step from the empty accumulator drops leading
empty parts and joins the rest with the blank-line separator. -/
theorem foldl_mergeStep_empty :
    ∀ parts : List String,
    parts.foldl mergeStep "" = joinSep "\n\n" (parts.dropWhile (fun s => s = "")) := by
  intro parts
  induction parts with
  | nil => rfl
  | cons s rest ih =>
    by_cases hs : s = ""
    · have hm : mergeStep "" s = "" := by
        simp [mergeStep, hs]
      rw [List.foldl_cons, hm, ih, List.dropWhile_cons]
      simp [hs]
    · have hm : mergeStep "" s = s := by
        simp [mergeStep]
      rw [List.foldl_cons, hm, foldl_mergeStep_of_ne rest s hs,
        List.dropWhile_cons]
      rw [if_neg (by simp [hs]), joinSep_cons]

/-- The head surviving dropWhile fails the dropped predicate. -/
theorem dropWhile_head_ne :
    ∀ (l : List String) (s : String) (rest : List String),
    l.dropWhile (fun x => x = "") = s :: rest → s ≠ "" := by
  intro l
  induction l with
  | nil =>
    intro s rest h
    simp at h
  | cons x l2 ih =>
    intro s rest h
    rw [List.dropWhile_cons] at h
    by_cases hx : x = ""
    · rw [if_pos (by simp [hx])] at h
      exact ih s rest h
    · rw [if_neg (by simp [hx])] at h
      injection h with h1 h2
      rw [← h1]
      exact hx

/-- Characterization of the inner fan-in loop over one entry's targets:
it appends one source per matching edge and merge-folds the recorded
outputs. -/
theorem fanInInner_char (ctx : ExecutionContext) (nid f : String) :
    ∀ (ts : List String) (acc : List String × String),
    fanInInner ctx nid f ts acc =
      (acc.1 ++ (ts.filter (fun t => t = nid)).map (fun _ => f),
       (((ts.filter (fun t => t = nid)).map (fun _ => f)).filterMap
          (fun g => (getOutput ctx g).map (fun o => o.content))).foldl
         mergeStep acc.2) := by
  intro ts
  induction ts with
  | nil =>
    intro acc
    simp [fanInInner]
  | cons t ts2 ih =>
    intro acc
    by_cases ht : t = nid
    · rw [fanInInner, if_neg (by simp [ht])]
      cases hg : getOutput ctx f with
      | none =>
        rw [ih _]
        simp [List.filter_cons, ht, List.filterMap_cons, hg, List.append_assoc]
      | some out =>
        rw [ih _]
        simp [List.filter_cons, ht, List.filterMap_cons, hg, List.append_assoc]
    · rw [fanInInner, if_pos ht, ih _]
      simp [List.filter_cons, ht]

/-- Characterization of the outer fan-in loop: sources are
findSourceNodes and content is the merge-fold of the recorded outputs in
that order. -/
theorem fanInB_char (ctx : ExecutionContext) (nid : String) :
    ∀ (sigma : List (String × List String)) (acc : List String × String),
    fanInB ctx nid sigma acc =
      (acc.1 ++ findSourceNodes sigma nid,
       ((findSourceNodes sigma nid).filterMap
          (fun g => (getOutput ctx g).map (fun o => o.content))).foldl
         mergeStep acc.2) := by
  intro sigma
  induction sigma with
  | nil =>
    intro acc
    simp [fanInB, findSourceNodes]
  | cons p sigma2 ih =>
    intro acc
    rw [fanInB, fanInInner_char, ih _, findSourceNodes]
    simp [List.filterMap_append, List.foldl_append, List.append_assoc]

/-- C3 counterexample fixture: LLM node a feeding gate b. -/
def p3 : PipelineConfig :=
  { id := "p3", name := "p3",
    nodes := [{ id := "a", type := nodeLLM, prompt := "x", model := emptyModel,
                tools := [], maxIter := 0, nextNodes := [], targetNodes := [] },
              gateNode "b"],
    edges := [{ fromNode := "a", toNode := "b" }], entryNode := "" }

/-- C3 counterexample fixture: the execution context after node a
recorded the empty output, on run input hello. -/
def ctx3 : ExecutionContext :=
  { input := { nodeID := "", content := "hello", sources := [] },
    history := [⟨"a", "", [], 0, 0⟩] }

/-- C3 counterexample fixture: the outcome of running p3 with a model
that returns empty content. -/
def out3 : EngineOutput :=
  { success := true, finalNode := "b", content := "hello",
    outputs := [("a", ⟨"a", "", [], 0, 0⟩), ("b", ⟨"b", "hello", [], 0, 0⟩)],
    spans := [⟨"span_2", "a", 0, "hello", "", 0, 0⟩,
              ⟨"span_4", "b", 3, "hello", "hello", 0, 0⟩],
    error := none }

/-- C3 counterexample: node b's predecessor a HAS a recorded output (the
empty string), whose blank-line concatenation is the empty string, yet
the input content handed to b is the run input hello — both for the
buildNodeInput function itself and in the full run (b's span records
input hello) — refuting the claimed equality with the concatenation of
recorded predecessor outputs. -/
theorem fanin_merge_counterexample :
    engineRun p3 constClient resolverD [] (edgesMapOf p3.edges) "hello" =
      (some out3, none) ∧
    getOutput ctx3 "a" = some ⟨"a", "", [], 0, 0⟩ ∧
    buildContentFromSources ["a"] ctx3 = "" ∧
    buildNodeInputA [("a", ["b"])] "b" ctx3 =
      { nodeID := "b", content := "hello", sources := ["a"] } ∧
    buildNodeInputB [("a", ["b"])] "b" ctx3 =
      { nodeID := "b", content := "hello", sources := ["a"] } ∧
    ("hello" : String) ≠ "" :=
  ⟨by decide, by decide, by decide, by decide, by decide, by decide⟩

/-- C3 amended: for any Go map iteration order sigma of the engine's
edges map, both buildNodeInput variants list exactly the declared
predecessors of the node (one per edge, as a multiset) as sources; the
first variant's content is the blank-line join of the predecessors'
recorded outputs in iteration order — falling back to the run input
exactly when that join is empty (in particular when no predecessor has a
recorded output, or all recorded outputs are empty); the second variant
is identical except that it drops leading empty recorded outputs before
joining. -/
theorem fanin_merge_amended (es : List EdgeConfig)
    (sigma : List (String × List String)) (nid : String)
    (ctx : ExecutionContext)
    (hperm : sigma.Perm (edgesMapOf es)) :
    (buildNodeInputA sigma nid ctx).nodeID = nid ∧
    (buildNodeInputB sigma nid ctx).nodeID = nid ∧
    (buildNodeInputA sigma nid ctx).sources = findSourceNodes sigma nid ∧
    (buildNodeInputB sigma nid ctx).sources = findSourceNodes sigma nid ∧
    (findSourceNodes sigma nid).Perm
      ((es.filter (fun e => e.toNode = nid)).map (fun e => e.fromNode)) ∧
    (buildNodeInputA sigma nid ctx).content =
      (if joinSep "\n\n" ((findSourceNodes sigma nid).filterMap
          (fun g => (getOutput ctx g).map (fun o => o.content))) = ""
       then ctx.input.content
       else joinSep "\n\n" ((findSourceNodes sigma nid).filterMap
          (fun g => (getOutput ctx g).map (fun o => o.content)))) ∧
    (buildNodeInputB sigma nid ctx).content =
      (if ((findSourceNodes sigma nid).filterMap
            (fun g => (getOutput ctx g).map (fun o => o.content))).dropWhile
            (fun x => x = "") = []
       then ctx.input.content
       else joinSep "\n\n" (((findSourceNodes sigma nid).filterMap
            (fun g => (getOutput ctx g).map (fun o => o.content))).dropWhile
            (fun x => x = ""))) := by
  refine ⟨rfl, rfl, rfl, ?_, findSourceNodes_perm es sigma nid hperm, rfl, ?_⟩
  · show (fanInB ctx nid sigma ([], "")).1 = findSourceNodes sigma nid
    rw [fanInB_char]
    simp
  · show (if (fanInB ctx nid sigma ([], "")).2 = "" then ctx.input.content
      else (fanInB ctx nid sigma ([], "")).2) = _
    rw [fanInB_char]
    simp only []
    rw [foldl_mergeStep_empty]
    cases hd : ((findSourceNodes sigma nid).filterMap
        (fun g => (getOutput ctx g).map (fun o => o.content))).dropWhile
        (fun x => x = "") with
    | nil =>
      simp [joinSep]
    | cons s rest =>
      have hs : s ≠ "" := dropWhile_head_ne _ s rest hd
      rw [if_neg (joinSep_cons_ne _ s rest hs), if_neg (by simp)]

/-- C3 witness: the amended statement instantiated at the concrete p3
context with the singleton iteration order. -/
theorem fanin_merge_amended_witness :
    ([("a", ["b"])] : List (String × List String)).Perm (edgesMapOf p3.edges) ∧
    (findSourceNodes [("a", ["b"])] "b").Perm
      ((p3.edges.filter (fun e => e.toNode = "b")).map (fun e => e.fromNode)) ∧
    (buildNodeInputB [("a", ["b"])] "b" ctx3).sources =
      findSourceNodes [("a", ["b"])] "b" :=
  ⟨by decide,
   (fanin_merge_amended p3.edges [("a", ["b"])] "b" ctx3 (by decide)).2.2.2.2.1,
   (fanin_merge_amended p3.edges [("a", ["b"])] "b" ctx3 (by decide)).2.2.2.1⟩

end Fissio
